import Mathlib

/-!
Shallow embedding of the invoice2SAPdata core (the three provider parsers,
the number normalizer, the line deduplicator and the parser registry) and
proofs of the specification claims about them.

Conventions of the embedding:
* Python strings are modelled as `String`/`List Char`; all text operations
  are on code-point lists, matching Python `str` semantics.
* Python `float` values are modelled by `PyFloat`: either an exact rational
  (`finite q`), an infinity, or NaN.  `finite q` abstracts from IEEE-754
  rounding: every literal reaching a claim in this development has at most a
  few dozen digits and an integral or short decimal value, where sign,
  zero-ness and integrality are preserved by round-to-nearest, which is all
  the claims depend on.  The `inf`/`nan` string literals accepted by
  CPython's `float(str)` are modelled exactly.  PEP-515 underscores in
  numeric strings are not modelled; no claim's statement involves them
  (a digit-free string can never be a valid underscored literal).
* Python exceptions are modelled with `Except PyExc`; a `try/except
  ValueError` block is `pyTry`.
-/

/-! ## Character predicates (Python `str` semantics) -/

/-- ASCII decimal digit, the `\d` / `[0-9]` class of the patterns. -/
def isDigit (c : Char) : Bool := 48 ≤ c.toNat && c.toNat ≤ 57

def isAsciiUpper (c : Char) : Bool := 65 ≤ c.toNat && c.toNat ≤ 90

def isAsciiLower (c : Char) : Bool := 97 ≤ c.toNat && c.toNat ≤ 122

/-- The set of characters Python's `str.strip()` / `re` `\s` treat as
whitespace (`Py_UNICODE_ISSPACE`). -/
def isPyWs (c : Char) : Bool :=
  let n := c.toNat
  (9 ≤ n && n ≤ 13) || n == 32 || (28 ≤ n && n ≤ 31) || n == 0x85 ||
    n == 0xa0 || n == 0x1680 || (0x2000 ≤ n && n ≤ 0x200a) || n == 0x2028 ||
    n == 0x2029 || n == 0x202f || n == 0x205f || n == 0x3000

/-- The non-breaking-space character removed by the number normalizers. -/
def nbsp : Char := Char.ofNat 0xa0

/-- Lowercasing table for the non-ASCII letters occurring in the parsers'
patterns (plus the Kelvin and Angstrom signs, the only non-ASCII characters
whose Unicode lowercase form is relevant to the registry's ASCII provider
names). -/
def viLowerPairs : List (Char × Char) :=
  [('À', 'à'), ('Á', 'á'), ('Ả', 'ả'), ('Ã', 'ã'), ('Ạ', 'ạ'),
   ('Ă', 'ă'), ('Ắ', 'ắ'), ('Ằ', 'ằ'), ('Ẳ', 'ẳ'), ('Ẵ', 'ẵ'), ('Ặ', 'ặ'),
   ('Â', 'â'), ('Ấ', 'ấ'), ('Ầ', 'ầ'), ('Ẩ', 'ẩ'), ('Ẫ', 'ẫ'), ('Ậ', 'ậ'),
   ('È', 'è'), ('É', 'é'), ('Ẻ', 'ẻ'), ('Ẽ', 'ẽ'), ('Ẹ', 'ẹ'),
   ('Ê', 'ê'), ('Ế', 'ế'), ('Ề', 'ề'), ('Ể', 'ể'), ('Ễ', 'ễ'), ('Ệ', 'ệ'),
   ('Ì', 'ì'), ('Í', 'í'), ('Ỉ', 'ỉ'), ('Ĩ', 'ĩ'), ('Ị', 'ị'),
   ('Ò', 'ò'), ('Ó', 'ó'), ('Ỏ', 'ỏ'), ('Õ', 'õ'), ('Ọ', 'ọ'),
   ('Ô', 'ô'), ('Ố', 'ố'), ('Ồ', 'ồ'), ('Ổ', 'ổ'), ('Ỗ', 'ỗ'), ('Ộ', 'ộ'),
   ('Ơ', 'ơ'), ('Ớ', 'ớ'), ('Ờ', 'ờ'), ('Ở', 'ở'), ('Ỡ', 'ỡ'), ('Ợ', 'ợ'),
   ('Ù', 'ù'), ('Ú', 'ú'), ('Ủ', 'ủ'), ('Ũ', 'ũ'), ('Ụ', 'ụ'),
   ('Ư', 'ư'), ('Ứ', 'ứ'), ('Ừ', 'ừ'), ('Ử', 'ử'), ('Ữ', 'ữ'), ('Ự', 'ự'),
   ('Ỳ', 'ỳ'), ('Ý', 'ý'), ('Ỷ', 'ỷ'), ('Ỹ', 'ỹ'), ('Ỵ', 'ỵ'),
   ('Đ', 'đ'), (Char.ofNat 0x212a, 'k'), (Char.ofNat 0x212b, 'å')]

/-- Unicode simple lowercasing, restricted to ASCII plus `viLowerPairs`.
All other characters are fixed, which agrees with Python `str.lower()` on
every character this development evaluates it on. -/
def pyLower (c : Char) : Char :=
  if isAsciiUpper c then Char.ofNat (c.toNat + 32)
  else
    match viLowerPairs.find? (fun p => p.1 == c) with
    | some p => p.2
    | none => c

/-- Python `str.strip()` on a code-point list. -/
def pyStrip (l : List Char) : List Char :=
  ((l.dropWhile isPyWs).reverse.dropWhile isPyWs).reverse

/-- Value of a digit string, most significant first (Python `int` of an
all-digit string). -/
def digitsVal (l : List Char) : Nat :=
  l.foldl (fun acc c => acc * 10 + (c.toNat - 48)) 0

/-! ## Python floats -/

/-- Model of a Python `float` produced from a string: an exact rational, an
infinity or NaN (see the header comment for the rounding abstraction). -/
inductive PyFloat where
  | finite (q : ℚ)
  | inf
  | neginf
  | nan
deriving DecidableEq, Repr

/-- Python `==` on floats: NaN compares unequal to everything, including
itself. -/
def PyFloat.pyEq : PyFloat → PyFloat → Bool
  | .finite a, .finite b => a == b
  | .inf, .inf => true
  | .neginf, .neginf => true
  | _, _ => false

/-- Python truthiness of a float: `0.0` is falsy, everything else (including
NaN and the infinities) is truthy. -/
def PyFloat.truthy : PyFloat → Bool
  | .finite q => q != 0
  | _ => true

/-- Value of `[sign] ipart . fpart e exp`, i.e. the exact rational
`± digits(ipart ++ fpart) * 10 ^ (exp - |fpart|)` (built with `mkRat` so
that it evaluates inside the kernel). -/
def mkFloatVal (neg : Bool) (ip fp : List Char) (ex : Int) : PyFloat :=
  let m : Nat := digitsVal (ip ++ fp)
  let e : Int := ex - fp.length
  let q : ℚ :=
    if 0 ≤ e then mkRat (m * 10 ^ e.toNat : Nat) 1
    else mkRat m (10 ^ (-e).toNat)
  .finite (if neg then -q else q)

/-- Exponent digits of a float literal: `u` must be a nonempty digit run. -/
def parseExpDigits (neg : Bool) (ip fp : List Char) (sgn : Int)
    (u : List Char) : Option PyFloat :=
  let ed := u.takeWhile isDigit
  if ed.isEmpty || !(u.drop ed.length).isEmpty then none
  else some (mkFloatVal neg ip fp (sgn * (digitsVal ed : Int)))

/-- After the integer and fraction digits: end of string, or an exponent
with optional sign; at least one digit must have occurred. -/
def parseDecimalExp (neg : Bool) (ip fp : List Char) :
    List Char → Option PyFloat
  | [] =>
    if ip.length + fp.length == 0 then none
    else some (mkFloatVal neg ip fp 0)
  | e :: t =>
    if ip.length + fp.length == 0 then none
    else if e == 'e' || e == 'E' then
      match t with
      | '+' :: u => parseExpDigits neg ip fp 1 u
      | '-' :: u => parseExpDigits neg ip fp (-1) u
      | u => parseExpDigits neg ip fp 1 u
    else none

/-- Optional `.` and fraction digits after the integer digits. -/
def parseDecimalFrac (neg : Bool) (ip : List Char) :
    List Char → Option PyFloat
  | '.' :: t =>
    parseDecimalExp neg ip (t.takeWhile isDigit)
      (t.drop (t.takeWhile isDigit).length)
  | r1 => parseDecimalExp neg ip [] r1

/-- The numeric (non-`inf`/`nan`) part of the CPython `float(str)` grammar:
`digits [. digits] [(e|E) [sign] digits]`, at least one digit before the
exponent. -/
def parseDecimal (neg : Bool) (l : List Char) : Option PyFloat :=
  parseDecimalFrac neg (l.takeWhile isDigit) (l.drop (l.takeWhile isDigit).length)

/-- The sign-stripped part of `float(str)`: an `inf`/`infinity`/`nan`
literal (case-insensitive) or a decimal number. -/
def pyStrToFloatSigned (neg : Bool) (rest : List Char) : Option PyFloat :=
  let low := rest.map pyLower
  if low == ['i', 'n', 'f'] || low == ['i', 'n', 'f', 'i', 'n', 'i', 't', 'y'] then
    some (if neg then .neginf else .inf)
  else if low == ['n', 'a', 'n'] then some .nan
  else parseDecimal neg rest

/-- Negative iff the stripped string starts with `-`. -/
def signOf : List Char → Bool
  | '-' :: _ => true
  | _ => false

/-- Remove one leading sign character, if present. -/
def stripSign : List Char → List Char
  | '+' :: t => t
  | '-' :: t => t
  | t => t

/-- CPython `float(str)`: strip whitespace, optional sign, then either an
`inf`/`infinity`/`nan` literal or a decimal number.  `none` models
`ValueError`. -/
def pyStrToFloat (s : List Char) : Option PyFloat :=
  pyStrToFloatSigned (signOf (pyStrip s)) (stripSign (pyStrip s))

/-! ## Exceptions -/

/-- The Python exceptions arising in the modelled code. -/
inductive PyExc where
  | valueError
  | importError (msg : String)
deriving DecidableEq, Repr

instance exceptDecEq {ε α : Type} [DecidableEq ε] [DecidableEq α] :
    DecidableEq (Except ε α)
  | .ok a, .ok b => decidable_of_iff (a = b) (by simp)
  | .ok _, .error _ => isFalse (by simp)
  | .error _, .ok _ => isFalse (by simp)
  | .error e, .error f => decidable_of_iff (e = f) (by simp)

/-- `try: ... except ValueError: <dflt>`. -/
def pyTry {α : Type} (x : Except PyExc α) (dflt : α) : Except PyExc α :=
  match x with
  | .error .valueError => .ok dflt
  | v => v

/-- Run an exception-aware computation, substituting a default if it raised
(used to read off the value of a computation proved not to raise). -/
def pyRun {α : Type} (x : Except PyExc α) (dflt : α) : α :=
  match x with
  | .ok v => v
  | .error _ => dflt

/-- `float(s)` as an exception-raising operation. -/
def pyFloatE (l : List Char) : Except PyExc PyFloat :=
  match pyStrToFloat l with
  | some v => .ok v
  | none => .error .valueError

/-- Python `int(s)`: optional surrounding whitespace and sign, then a
nonempty digit string (PEP-515 underscores not modelled; every string this
development applies it to is all-digits). -/
def pyIntE (l : List Char) : Except PyExc Int :=
  match pyStrip l with
  | '-' :: t =>
    if !t.isEmpty && t.all isDigit then .ok (-(digitsVal t : Int))
    else .error .valueError
  | '+' :: t =>
    if !t.isEmpty && t.all isDigit then .ok (digitsVal t : Int)
    else .error .valueError
  | t =>
    if !t.isEmpty && t.all isDigit then .ok (digitsVal t : Int)
    else .error .valueError

/-- Total reading of `int(s)` with a junk default; the parsers only apply it
where `pyIntE` is proved to succeed. -/
def pyIntD (l : List Char) : Int :=
  match pyIntE l with
  | .ok v => v
  | .error _ => 0

/-! ## The number normalizers (`_parse_number` of the three parsers) -/

namespace MobifoneInvoiceParser

/-- Cleaning pipeline of `MobifoneInvoiceParser._parse_number`:
`value.replace("\xa0", " ").strip()`, then `.replace(",", ".")`,
`.replace(" ", "")`, `.replace(".", "")`. -/
def cleanNumber (value : String) : List Char :=
  let l := value.toList.map (fun c => if c = nbsp then ' ' else c)
  let l := pyStrip l
  let l := l.map (fun c => if c = ',' then '.' else c)
  let l := l.filter (fun c => c ≠ ' ')
  l.filter (fun c => c ≠ '.')

/-- `MobifoneInvoiceParser._parse_number` with explicit exception behavior:
the guard `if not value: return 0.0`, then `float(cleaned)` inside
`try/except ValueError`. -/
def _parse_numberE (value : String) : Except PyExc PyFloat :=
  if value = "" then .ok (.finite 0)
  else pyTry (pyFloatE (cleanNumber value)) (.finite 0)

/-- `MobifoneInvoiceParser._parse_number` (which never raises). -/
def _parse_number (value : String) : PyFloat :=
  pyRun (_parse_numberE value) (.finite 0)

end MobifoneInvoiceParser

namespace ViettelInvoiceParser

/-- Cleaning pipeline of `ViettelInvoiceParser._parse_number`:
`value.replace("\xa0", "").strip()`, then `.replace(",", ".")`,
`.replace(".", "")`. -/
def cleanNumber (value : String) : List Char :=
  let l := value.toList.filter (fun c => c ≠ nbsp)
  let l := pyStrip l
  let l := l.map (fun c => if c = ',' then '.' else c)
  l.filter (fun c => c ≠ '.')

/-- `ViettelInvoiceParser._parse_number` with explicit exception behavior. -/
def _parse_numberE (value : String) : Except PyExc PyFloat :=
  pyTry (pyFloatE (cleanNumber value)) (.finite 0)

/-- `ViettelInvoiceParser._parse_number` (which never raises). -/
def _parse_number (value : String) : PyFloat :=
  pyRun (_parse_numberE value) (.finite 0)

end ViettelInvoiceParser

namespace VNPTInvoiceParser

/-- Cleaning pipeline of `VNPTInvoiceParser._parse_number` (textually the
same as Viettel's). -/
def cleanNumber (value : String) : List Char :=
  let l := value.toList.filter (fun c => c ≠ nbsp)
  let l := pyStrip l
  let l := l.map (fun c => if c = ',' then '.' else c)
  l.filter (fun c => c ≠ '.')

/-- `VNPTInvoiceParser._parse_number` with explicit exception behavior. -/
def _parse_numberE (value : String) : Except PyExc PyFloat :=
  pyTry (pyFloatE (cleanNumber value)) (.finite 0)

/-- `VNPTInvoiceParser._parse_number` (which never raises). -/
def _parse_number (value : String) : PyFloat :=
  pyRun (_parse_numberE value) (.finite 0)

end VNPTInvoiceParser


/-! ## A backtracking regex engine

The parsers' patterns use only: case-insensitive literal characters,
character classes, greedy and reluctant counted repetition of a class,
optional groups, capture groups and one word boundary.  `matchRE` is a
continuation-passing backtracking matcher whose priority order (greedy
repetition tries the longest count first, reluctant the shortest; an
optional part is tried before being skipped) mirrors CPython's `re`
backtracking, and `reSearchFrom` mirrors `re.search` (leftmost starting
position wins). -/

/-- Regex AST covering the constructs used by the invoice patterns. -/
inductive RE where
  | eps
  | cls (f : Char → Bool)
  | cat (a b : RE)
  | opt (a : RE)
  | repCls (f : Char → Bool) (lo : Nat) (hi : Option Nat) (lazy : Bool)
  | group (n : Nat) (a : RE)
  | wordB

/-- A regex match: span `[mstart, mstop)` plus recorded capture-group spans
(innermost-last-first; each group of the invoice patterns matches at most
once per overall match). -/
structure MRes where
  mstart : Nat
  mstop : Nat
  groups : List (Nat × Nat × Nat)
deriving DecidableEq, Repr

/-- Word character for `\b` (Python `\w` restricted to the repertoire this
development exercises: ASCII alphanumerics, underscore, and the accented
letters of the patterns in either case). -/
def isWordChar (c : Char) : Bool :=
  isAsciiUpper c || isAsciiLower c || isDigit c || c == '_' ||
    pyLower c != c || pyLower c ∈
      ['à', 'á', 'ả', 'ã', 'ạ', 'ă', 'ắ', 'ằ', 'ẳ', 'ẵ', 'ặ', 'â', 'ấ', 'ầ',
       'ẩ', 'ẫ', 'ậ', 'è', 'é', 'ẻ', 'ẽ', 'ẹ', 'ê', 'ế', 'ề', 'ể', 'ễ', 'ệ',
       'ì', 'í', 'ỉ', 'ĩ', 'ị', 'ò', 'ó', 'ỏ', 'õ', 'ọ', 'ô', 'ố', 'ồ', 'ổ',
       'ỗ', 'ộ', 'ơ', 'ớ', 'ờ', 'ở', 'ỡ', 'ợ', 'ù', 'ú', 'ủ', 'ũ', 'ụ', 'ư',
       'ứ', 'ừ', 'ử', 'ữ', 'ự', 'ỳ', 'ý', 'ỷ', 'ỹ', 'ỵ', 'đ']

def isWordAt (cs : List Char) (i : Nat) : Bool :=
  match cs[i]? with
  | some c => isWordChar c
  | none => false

def atWordBoundary (cs : List Char) (i : Nat) : Bool :=
  (if i = 0 then false else isWordAt cs (i - 1)) != isWordAt cs i

/-- Length of the maximal run of characters satisfying `f` starting at
position `i`. -/
def clsRun (f : Char → Bool) (cs : List Char) (i : Nat) : Nat :=
  ((cs.drop i).takeWhile f).length

/-- The candidate repetition counts of `repCls f lo hi lazy` at a position
whose maximal run has length `run`: `lo..min run hi`, shortest first when
lazy, longest first when greedy. -/
def repCounts (lo : Nat) (hi : Option Nat) (lazy : Bool) (run : Nat) : List Nat :=
  let top := match hi with
    | some h => min run h
    | none => run
  if top < lo then []
  else if lazy then List.range' lo (top - lo + 1)
  else (List.range' lo (top - lo + 1)).reverse

/-- The backtracking matcher.  `k` is the continuation receiving the
position after the current sub-pattern and the capture groups recorded so
far. -/
def matchRE (cs : List Char) :
    RE → Nat → List (Nat × Nat × Nat) →
    (Nat → List (Nat × Nat × Nat) → Option MRes) → Option MRes
  | .eps, i, g, k => k i g
  | .cls f, i, g, k =>
    match cs[i]? with
    | some c => if f c then k (i + 1) g else none
    | none => none
  | .cat a b, i, g, k =>
    matchRE cs a i g (fun i' g' => matchRE cs b i' g' k)
  | .opt a, i, g, k =>
    match matchRE cs a i g k with
    | some res => some res
    | none => k i g
  | .repCls f lo hi lz, i, g, k =>
    (repCounts lo hi lz (clsRun f cs i)).findSome? (fun j => k (i + j) g)
  | .group n a, i, g, k =>
    matchRE cs a i g (fun i' g' => k i' ((n, i, i') :: g'))
  | .wordB, i, g, k =>
    if atWordBoundary cs i then k i g else none

/-- `re.search` restricted to start positions `≥ pos` (used by `finditer`):
the leftmost starting position with a match wins. -/
def reSearchFrom (cs : List Char) (r : RE) (pos : Nat) : Option MRes :=
  (List.range' pos (cs.length + 1 - pos)).findSome?
    (fun p => matchRE cs r p [] (fun i g => some ⟨p, i, g⟩))

/-- `re.search`. -/
def reSearch (cs : List Char) (r : RE) : Option MRes :=
  reSearchFrom cs r 0

/-- The recorded span of group `n`, if any (group lists record the most
recent match of each group first; every group the parsers read matches
exactly once). -/
def findN (n : Nat) (g : List (Nat × Nat × Nat)) : Option (Nat × Nat × Nat) :=
  g.find? (fun x => x.1 == n)

/-- `match.group(n)` as a code-point list (empty if the group was not
recorded, which never happens for the groups the parsers read). -/
def MRes.grp (m : MRes) (cs : List Char) (n : Nat) : List Char :=
  match findN n m.groups with
  | some x => (cs.drop x.2.1).take (x.2.2 - x.2.1)
  | none => []

def findIterAux (cs : List Char) (r : RE) : Nat → Nat → List MRes
  | 0, _ => []
  | fuel + 1, pos =>
    match reSearchFrom cs r pos with
    | none => []
    | some m =>
      m :: findIterAux cs r fuel (if m.mstop = m.mstart then m.mstop + 1 else m.mstop)

/-- `re.finditer`: repeated non-overlapping leftmost search, resuming at
each match's end (one past it for an empty match).  The fuel bound
`cs.length + 2` exceeds the number of possible iterations, since the resume
position strictly increases and search fails beyond the end. -/
def findIter (cs : List Char) (r : RE) : List MRes :=
  findIterAux cs r (cs.length + 2) 0

/-! ### Pattern constructors -/

/-- Concatenation of a list of regexes. -/
def reSeq (l : List RE) : RE := l.foldr .cat .eps

/-- Case-insensitive single literal character (`re.IGNORECASE`). -/
def reChar (p : Char) : RE := .cls (fun c => pyLower c == pyLower p)

/-- Case-insensitive literal string. -/
def reLit (s : String) : RE := reSeq (s.toList.map reChar)

/-- `f*` (greedy). -/
def reStar (f : Char → Bool) : RE := .repCls f 0 none false

/-- `f+` (greedy). -/
def rePlus (f : Char → Bool) : RE := .repCls f 1 none false

/-- `f{lo,hi}` (greedy). -/
def reRep (f : Char → Bool) (lo hi : Nat) : RE := .repCls f lo (some hi) false

/-- `[A-Z0-9]` under `re.IGNORECASE`. -/
def clsUpperNum (c : Char) : Bool := isAsciiUpper c || isAsciiLower c || isDigit c

/-- `[0-9\.,]`. -/
def clsNumDotComma (c : Char) : Bool := isDigit c || c == '.' || c == ','

/-- `[^:]`. -/
def clsNotColon (c : Char) : Bool := c != ':'

/-- `[^:\n]`. -/
def clsNotColonNl (c : Char) : Bool := c != ':' && c != '\n'

/-- `[^)]`. -/
def clsNotRParen (c : Char) : Bool := c != ')'

/-- `[^0-9]`. -/
def clsNotDigit (c : Char) : Bool := !isDigit c

/-- `.` (any character but newline; the patterns are compiled without
`re.DOTALL`). -/
def clsDot (c : Char) : Bool := c != '\n'

/-- `[:\s]`. -/
def clsColonWs (c : Char) : Bool := c == ':' || isPyWs c

/-- `([0-9][0-9\.,]*)` as capture group `n` (the numeric-token group shared
by the line and summary patterns). -/
def numToken (n : Nat) : RE := .group n (.cat (.cls isDigit) (reStar clsNumDotComma))


/-! ## Whitespace normalization and the data model -/

def normWsAux : Bool → List Char → List Char
  | _, [] => []
  | inRun, c :: rest =>
    if isPyWs c then
      if inRun then normWsAux true rest else ' ' :: normWsAux true rest
    else c :: normWsAux false rest

/-- `re.sub(r"\s+", " ", text)`: every maximal whitespace run becomes one
space. -/
def normalizeWs (l : List Char) : List Char := normWsAux false l


/-- One charge line of the intermediate schema: the four-field dictionaries
appended to `lines` by the parsers. -/
structure ChargeLine where
  base_amount : PyFloat
  vat_rate : Int
  vat_amount : PyFloat
  total_amount : PyFloat
deriving DecidableEq, Repr

/-- The intermediate schema returned by every `parse_pdf`: all four keys
are always present by construction. -/
structure Invoice where
  invoice_no : String
  serial_no : String
  invoice_date : String
  lines : List ChargeLine
deriving DecidableEq, Repr

/-- Python `==` on the key tuple
`(base_amount, vat_rate, vat_amount, total_amount)` (float fields compared
with float equality, so NaN never equals). -/
def lineKeyEq (a b : ChargeLine) : Bool :=
  a.base_amount.pyEq b.base_amount && a.vat_rate == b.vat_rate &&
    a.vat_amount.pyEq b.vat_amount && a.total_amount.pyEq b.total_amount

/-- The deduplication loop of the Mobifone and Viettel parsers: walk the
captured lines in order, keeping a line only if its key tuple is not in the
`seen` set (represented here by the list of previously kept lines). -/
def dedupAux (seen : List ChargeLine) : List ChargeLine → List ChargeLine
  | [] => []
  | l :: rest =>
    if seen.any (fun s => lineKeyEq s l) then dedupAux seen rest
    else l :: dedupAux (l :: seen) rest

/-- The Line Deduplicator. -/
def dedupLines (ls : List ChargeLine) : List ChargeLine := dedupAux [] ls

/-- Specification-side rendering of "first occurrence wins": keep the head,
then recursively keep the first occurrences among the later lines whose key
differs from the head's. -/
def keepFirst : List ChargeLine → List ChargeLine
  | [] => []
  | l :: rest => l :: keepFirst (rest.filter (fun x => !lineKeyEq l x))
termination_by l => l.length
decreasing_by
  simp only [List.length_cons]
  exact Nat.lt_succ_of_le (List.length_filter_le _ _)

/-! ## Date handling (`datetime.date(y, m, d).isoformat()`) -/

def isLeapYear (y : Nat) : Bool := y % 4 == 0 && (y % 100 != 0 || y % 400 == 0)

def daysInMonth (y m : Nat) : Nat :=
  if m == 2 then (if isLeapYear y then 29 else 28)
  else if m == 4 || m == 6 || m == 9 || m == 11 then 30
  else 31

/-- Proleptic-Gregorian calendar validity as checked by `datetime.date`
(year restricted to `MINYEAR..MAXYEAR = 1..9999`). -/
def validYMD (y m d : Nat) : Bool :=
  1 ≤ y && y ≤ 9999 && 1 ≤ m && m ≤ 12 && 1 ≤ d && d ≤ daysInMonth y m

def padNum (w n : Nat) : String :=
  let s := toString n
  String.mk (List.replicate (w - s.length) '0') ++ s

/-- `date(y, m, d).isoformat()`. -/
def isoDate (y m d : Nat) : String :=
  padNum 4 y ++ "-" ++ padNum 2 m ++ "-" ++ padNum 2 d

/-- `date(y, m, d)` construction followed by `isoformat()`; raises
`ValueError` on an invalid calendar date. -/
def pyDateIsoE (y m d : Int) : Except PyExc String :=
  if 0 ≤ y ∧ 0 ≤ m ∧ 0 ≤ d ∧ validYMD y.toNat m.toNat d.toNat then
    .ok (isoDate y.toNat m.toNat d.toNat)
  else .error .valueError

/-- The body of each parser's date `try` block:
`date(int(year), int(month), int(day)).isoformat()`. -/
def dateFromGroupsE (dayS monthS yearS : List Char) : Except PyExc String := do
  let y ← pyIntE yearS
  let m ← pyIntE monthS
  let d ← pyIntE dayS
  pyDateIsoE y m d

/-- The whole `try/except ValueError` date assignment: the ISO date, or `""`
when any of the `int`/`date` calls raises. -/
def dateFromGroups (dayS monthS yearS : List Char) : String :=
  pyRun (pyTry (dateFromGroupsE dayS monthS yearS) "") ""


/-! ## Mobifone parser -/

namespace MobifoneInvoiceParser

/-- `\b([A-Z0-9]{4,})\s+(\d{4,})\s+Ký\s*hiệu\s*Số` (IGNORECASE). -/
def comboRE : RE :=
  reSeq [.wordB, .group 1 (.repCls clsUpperNum 4 none false), rePlus isPyWs,
    .group 2 (.repCls isDigit 4 none false), rePlus isPyWs, reLit "Ký",
    reStar isPyWs, reLit "hiệu", reStar isPyWs, reLit "Số"]

/-- `Ký\s*hiệu[^:]*[:\s]\s*([A-Z0-9]{4,})` (IGNORECASE). -/
def serialRE : RE :=
  reSeq [reLit "Ký", reStar isPyWs, reLit "hiệu", reStar clsNotColon,
    .cls clsColonWs, reStar isPyWs, .group 1 (.repCls clsUpperNum 4 none false)]

/-- `Số\s*(?:\(No\.\))?[^:]*[:\s]\s*(\d+)` (IGNORECASE). -/
def numberRE : RE :=
  reSeq [reLit "Số", reStar isPyWs, .opt (reLit "(No.)"), reStar clsNotColon,
    .cls clsColonWs, reStar isPyWs, .group 1 (rePlus isDigit)]

/-- `Ngày\s+(\d{1,2})\s+tháng\s+(\d{1,2})\s+năm\s+(\d{4})` (IGNORECASE). -/
def dateRE : RE :=
  reSeq [reLit "Ngày", rePlus isPyWs, .group 1 (reRep isDigit 1 2),
    rePlus isPyWs, reLit "tháng", rePlus isPyWs, .group 2 (reRep isDigit 1 2),
    rePlus isPyWs, reLit "năm", rePlus isPyWs, .group 3 (reRep isDigit 4 4)]

/-- `([0-9][0-9\.\,]*)\s+([0-9][0-9\.\,]*)\s+(\d{1,2})%\s+([0-9][0-9\.\,]*)\s+Cước`
(IGNORECASE): total, VAT amount, rate, base before the word "Cước". -/
def lineRE : RE :=
  reSeq [numToken 1, rePlus isPyWs, numToken 2, rePlus isPyWs,
    .group 3 (reRep isDigit 1 2), reChar '%', rePlus isPyWs, numToken 4,
    rePlus isPyWs, reLit "Cước"]

/-- Serial/invoice-number extraction: the combined pattern first, then the
two separate fallback patterns, `""` for anything unmatched. -/
def serialNumberFields (cs : List Char) : String × String :=
  match reSearch cs comboRE with
  | some m => (String.mk (pyStrip (m.grp cs 1)), String.mk (pyStrip (m.grp cs 2)))
  | none =>
    (match reSearch cs serialRE with
     | some m => String.mk (pyStrip (m.grp cs 1))
     | none => "",
     match reSearch cs numberRE with
     | some m => String.mk (pyStrip (m.grp cs 1))
     | none => "")

/-- Date extraction: `""` when the pattern does not match or the matched
day/month/year is not a calendar date. -/
def dateField (cs : List Char) : String :=
  match reSearch cs dateRE with
  | some m => dateFromGroups (m.grp cs 1) (m.grp cs 2) (m.grp cs 3)
  | none => ""

/-- One captured service line (groups: total, VAT, rate, base). -/
def lineOfMatch (cs : List Char) (m : MRes) : ChargeLine :=
  { base_amount := _parse_number (String.mk (m.grp cs 4))
    vat_rate := pyIntD (m.grp cs 3)
    vat_amount := _parse_number (String.mk (m.grp cs 2))
    total_amount := _parse_number (String.mk (m.grp cs 1)) }

/-- The raw (pre-deduplication) service lines. -/
def rawLines (cs : List Char) : List ChargeLine :=
  (findIter cs lineRE).map (lineOfMatch cs)

/-- `MobifoneInvoiceParser.parse_pdf`, applied to the text extracted from
the document (the PDF-to-text collaborator is out of scope per the spec). -/
def parse_pdf (text : String) : Invoice :=
  let cs := normalizeWs text.toList
  let sn := serialNumberFields cs
  { invoice_no := sn.2
    serial_no := sn.1
    invoice_date := dateField cs
    lines := dedupLines (rawLines cs) }

/-- One captured service line with the explicit exception behavior of
`int(rate_raw)` (the only uncaught potential raise site). -/
def lineOfMatchE (cs : List Char) (m : MRes) : Except PyExc ChargeLine := do
  let base := _parse_number (String.mk (m.grp cs 4))
  let rate ← pyIntE (m.grp cs 3)
  let vat := _parse_number (String.mk (m.grp cs 2))
  let total := _parse_number (String.mk (m.grp cs 1))
  pure { base_amount := base, vat_rate := rate, vat_amount := vat, total_amount := total }

/-- The for-loop building `raw_lines`, with exceptions explicit. -/
def exceptMapM {α β : Type} (f : α → Except PyExc β) : List α → Except PyExc (List β)
  | [] => .ok []
  | x :: xs => do
    let y ← f x
    let ys ← exceptMapM f xs
    .ok (y :: ys)

/-- `MobifoneInvoiceParser.parse_pdf` with every potential exception site
explicit: the date `try/except`, and the `int()` of each line's VAT rate. -/
def parse_pdfE (text : String) : Except PyExc Invoice := do
  let cs := normalizeWs text.toList
  let sn := serialNumberFields cs
  let dateStr ←
    match reSearch cs dateRE with
    | some m => pyTry (dateFromGroupsE (m.grp cs 1) (m.grp cs 2) (m.grp cs 3)) ""
    | none => pure ""
  let raw ← exceptMapM (lineOfMatchE cs) (findIter cs lineRE)
  pure { invoice_no := sn.2, serial_no := sn.1, invoice_date := dateStr,
         lines := dedupLines raw }

end MobifoneInvoiceParser

/-! ## Viettel parser -/

namespace ViettelInvoiceParser

/-- `Ký\s*hiệu\s*[:\s]\s*([A-Z0-9]+)` (IGNORECASE). -/
def serialRE : RE :=
  reSeq [reLit "Ký", reStar isPyWs, reLit "hiệu", reStar isPyWs,
    .cls clsColonWs, reStar isPyWs, .group 1 (rePlus clsUpperNum)]

/-- `Số\s*[:\s]\s*(\d+)` (IGNORECASE). -/
def numberRE : RE :=
  reSeq [reLit "Số", reStar isPyWs, .cls clsColonWs, reStar isPyWs,
    .group 1 (rePlus isDigit)]

/-- `Ngày\s*(?:lập)?\s*[:\s]*([0-9]{1,2})/([0-9]{1,2})/([0-9]{4})`
(IGNORECASE). -/
def dateSlashRE : RE :=
  reSeq [reLit "Ngày", reStar isPyWs, .opt (reLit "lập"), reStar isPyWs,
    reStar clsColonWs, .group 1 (reRep isDigit 1 2), reChar '/',
    .group 2 (reRep isDigit 1 2), reChar '/', .group 3 (reRep isDigit 4 4)]

/-- `Ngày\s+([0-9]{1,2})\s+tháng\s+([0-9]{1,2})\s+năm\s+([0-9]{4})`
(IGNORECASE). -/
def dateTextRE : RE :=
  reSeq [reLit "Ngày", rePlus isPyWs, .group 1 (reRep isDigit 1 2),
    rePlus isPyWs, reLit "tháng", rePlus isPyWs, .group 2 (reRep isDigit 1 2),
    rePlus isPyWs, reLit "năm", rePlus isPyWs, .group 3 (reRep isDigit 4 4)]

/-- `([0-9][0-9\.,]*)\s+(\d{1,2})%\s+([0-9][0-9\.,]*)\s+([0-9][0-9\.,]*)`
(no flag): base, rate, VAT amount, total. -/
def lineRE : RE :=
  reSeq [numToken 1, rePlus isPyWs, .group 2 (reRep isDigit 1 2), reChar '%',
    rePlus isPyWs, numToken 3, rePlus isPyWs, numToken 4]

/-- Date extraction: the slash form is searched first; the word form is
consulted only when the slash form finds no match at all. -/
def dateField (cs : List Char) : String :=
  match reSearch cs dateSlashRE with
  | some m => dateFromGroups (m.grp cs 1) (m.grp cs 2) (m.grp cs 3)
  | none =>
    match reSearch cs dateTextRE with
    | some m => dateFromGroups (m.grp cs 1) (m.grp cs 2) (m.grp cs 3)
    | none => ""

/-- One captured service line (groups: base, rate, VAT, total). -/
def lineOfMatch (cs : List Char) (m : MRes) : ChargeLine :=
  { base_amount := _parse_number (String.mk (m.grp cs 1))
    vat_rate := pyIntD (m.grp cs 2)
    vat_amount := _parse_number (String.mk (m.grp cs 3))
    total_amount := _parse_number (String.mk (m.grp cs 4)) }

def rawLines (cs : List Char) : List ChargeLine :=
  (findIter cs lineRE).map (lineOfMatch cs)

/-- `ViettelInvoiceParser.parse_pdf` applied to the extracted text. -/
def parse_pdf (text : String) : Invoice :=
  let cs := normalizeWs text.toList
  { invoice_no :=
      match reSearch cs numberRE with
      | some m => String.mk (pyStrip (m.grp cs 1))
      | none => ""
    serial_no :=
      match reSearch cs serialRE with
      | some m => String.mk (pyStrip (m.grp cs 1))
      | none => ""
    invoice_date := dateField cs
    lines := dedupLines (rawLines cs) }

def lineOfMatchE (cs : List Char) (m : MRes) : Except PyExc ChargeLine := do
  let base := _parse_number (String.mk (m.grp cs 1))
  let rate ← pyIntE (m.grp cs 2)
  let vat := _parse_number (String.mk (m.grp cs 3))
  let total := _parse_number (String.mk (m.grp cs 4))
  pure { base_amount := base, vat_rate := rate, vat_amount := vat, total_amount := total }

/-- `ViettelInvoiceParser.parse_pdf` with explicit exception sites. -/
def parse_pdfE (text : String) : Except PyExc Invoice := do
  let cs := normalizeWs text.toList
  let dateStr ←
    match reSearch cs dateSlashRE with
    | some m => pyTry (dateFromGroupsE (m.grp cs 1) (m.grp cs 2) (m.grp cs 3)) ""
    | none =>
      match reSearch cs dateTextRE with
      | some m => pyTry (dateFromGroupsE (m.grp cs 1) (m.grp cs 2) (m.grp cs 3)) ""
      | none => pure ""
  let raw ← MobifoneInvoiceParser.exceptMapM (lineOfMatchE cs) (findIter cs lineRE)
  pure { invoice_no :=
           match reSearch cs numberRE with
           | some m => String.mk (pyStrip (m.grp cs 1))
           | none => ""
         serial_no :=
           match reSearch cs serialRE with
           | some m => String.mk (pyStrip (m.grp cs 1))
           | none => ""
         invoice_date := dateStr
         lines := dedupLines raw }

end ViettelInvoiceParser

/-! ## VNPT parser -/

namespace VNPTInvoiceParser

/-- `Ký\s*hiệu\s*(?:\([^)]*\))?[^:\n]*[:\s]+([A-Z0-9]+)` (IGNORECASE). -/
def serialRE : RE :=
  reSeq [reLit "Ký", reStar isPyWs, reLit "hiệu", reStar isPyWs,
    .opt (reSeq [reChar '(', reStar clsNotRParen, reChar ')']),
    reStar clsNotColonNl, .repCls clsColonWs 1 none false,
    .group 1 (rePlus clsUpperNum)]

/-- `Số\s*(?:\([^)]*\))?[^:\n]*[:\s]+(\d+)` (IGNORECASE). -/
def numberRE : RE :=
  reSeq [reLit "Số", reStar isPyWs,
    .opt (reSeq [reChar '(', reStar clsNotRParen, reChar ')']),
    reStar clsNotColonNl, .repCls clsColonWs 1 none false,
    .group 1 (rePlus isDigit)]

/-- `Ngày[^0-9]*([0-9]{1,2})[^0-9]+([0-9]{1,2})[^0-9]+([0-9]{4})`
(IGNORECASE). -/
def dateRE : RE :=
  reSeq [reLit "Ngày", reStar clsNotDigit, .group 1 (reRep isDigit 1 2),
    rePlus clsNotDigit, .group 2 (reRep isDigit 1 2), rePlus clsNotDigit,
    .group 3 (reRep isDigit 4 4)]

/-- `Cộng\s+tiền\s+hàng[^:]*[:\s]*([0-9][0-9\.,]*)` (IGNORECASE). -/
def baseAmountRE : RE :=
  reSeq [reLit "Cộng", rePlus isPyWs, reLit "tiền", rePlus isPyWs,
    reLit "hàng", reStar clsNotColon, reStar clsColonWs, numToken 1]

/-- `Thuế\s+suất\s+thuế\s+GTGT[^:]*[:\s]*([0-9]{1,2})%?` (IGNORECASE). -/
def vatRateRE : RE :=
  reSeq [reLit "Thuế", rePlus isPyWs, reLit "suất", rePlus isPyWs,
    reLit "thuế", rePlus isPyWs, reLit "GTGT", reStar clsNotColon,
    reStar clsColonWs, .group 1 (reRep isDigit 1 2), .opt (reChar '%')]

/-- `Tiền\s+thuế\s+GTGT[^:]*[:\s]*([0-9][0-9\.,]*)` (IGNORECASE). -/
def vatAmountRE : RE :=
  reSeq [reLit "Tiền", rePlus isPyWs, reLit "thuế", rePlus isPyWs,
    reLit "GTGT", reStar clsNotColon, reStar clsColonWs, numToken 1]

/-- `Tổng\s+cộng\s+tiền\s+thanh\s+toán[^:]*[:\s]*([0-9][0-9\.,]*)`
(IGNORECASE). -/
def totalAmountRE : RE :=
  reSeq [reLit "Tổng", rePlus isPyWs, reLit "cộng", rePlus isPyWs,
    reLit "tiền", rePlus isPyWs, reLit "thanh", rePlus isPyWs, reLit "toán",
    reStar clsNotColon, reStar clsColonWs, numToken 1]

/-- `([0-9][0-9\.,]*)\s+Thuế\s+suất\s+thuế\s+GTGT[^0-9]*([0-9]{1,2})%.*?([0-9][0-9\.,]*)\s+([0-9][0-9\.,]*)`
(IGNORECASE), with a reluctant `.*?` between the rate and the two trailing
numbers. -/
def amountBlockRE : RE :=
  reSeq [numToken 1, rePlus isPyWs, reLit "Thuế", rePlus isPyWs, reLit "suất",
    rePlus isPyWs, reLit "thuế", rePlus isPyWs, reLit "GTGT",
    reStar clsNotDigit, .group 2 (reRep isDigit 1 2), reChar '%',
    .repCls clsDot 0 none true, numToken 3, rePlus isPyWs, numToken 4]

/-- The summary figures captured from the block pattern:
`(base_amount, vat_rate, vat_amount, total_amount)`. -/
def blockFigures (cs : List Char) (m : MRes) : PyFloat × Int × PyFloat × PyFloat :=
  (_parse_number (String.mk (m.grp cs 1)),
   if (m.grp cs 2).isEmpty then 0 else pyIntD (m.grp cs 2),
   _parse_number (String.mk (m.grp cs 3)),
   _parse_number (String.mk (m.grp cs 4)))

/-- The summary figures from the four independent label patterns; any label
whose pattern fails yields zero for that figure. -/
def fallbackFigures (cs : List Char) : PyFloat × Int × PyFloat × PyFloat :=
  (match reSearch cs baseAmountRE with
   | some m => _parse_number (String.mk (m.grp cs 1))
   | none => .finite 0,
   match reSearch cs vatRateRE with
   | some m => pyIntD (m.grp cs 1)
   | none => 0,
   match reSearch cs vatAmountRE with
   | some m => _parse_number (String.mk (m.grp cs 1))
   | none => .finite 0,
   match reSearch cs totalAmountRE with
   | some m => _parse_number (String.mk (m.grp cs 1))
   | none => .finite 0)

/-- The layered fallback: the combined block pattern first, the label
patterns only when it finds no match. -/
def figures (cs : List Char) : PyFloat × Int × PyFloat × PyFloat :=
  match reSearch cs amountBlockRE with
  | some m => blockFigures cs m
  | none => fallbackFigures cs

/-- `any([base_amount, vat_amount, total_amount])`: the condition under
which a charge line is appended (the rate is not consulted). -/
def anyFigure (f : PyFloat × Int × PyFloat × PyFloat) : Bool :=
  f.1.truthy || f.2.2.1.truthy || f.2.2.2.truthy

/-- `VNPTInvoiceParser.parse_pdf` applied to the extracted text. -/
def parse_pdf (text : String) : Invoice :=
  let cs := normalizeWs text.toList
  let f := figures cs
  { invoice_no :=
      match reSearch cs numberRE with
      | some m => String.mk (pyStrip (m.grp cs 1))
      | none => ""
    serial_no :=
      match reSearch cs serialRE with
      | some m => String.mk (pyStrip (m.grp cs 1))
      | none => ""
    invoice_date :=
      match reSearch cs dateRE with
      | some m => dateFromGroups (m.grp cs 1) (m.grp cs 2) (m.grp cs 3)
      | none => ""
    lines :=
      if anyFigure f then
        [{ base_amount := f.1, vat_rate := f.2.1, vat_amount := f.2.2.1,
           total_amount := f.2.2.2 }]
      else [] }

/-- The summary figures with the `int()` exception site explicit. -/
def figuresE (cs : List Char) : Except PyExc (PyFloat × Int × PyFloat × PyFloat) :=
  match reSearch cs amountBlockRE with
  | some m => do
    let base := _parse_number (String.mk (m.grp cs 1))
    let rate ← if (m.grp cs 2).isEmpty then pure 0 else pyIntE (m.grp cs 2)
    let vat := _parse_number (String.mk (m.grp cs 3))
    let total := _parse_number (String.mk (m.grp cs 4))
    pure (base, rate, vat, total)
  | none => do
    let base :=
      match reSearch cs baseAmountRE with
      | some m => _parse_number (String.mk (m.grp cs 1))
      | none => .finite 0
    let rate ←
      match reSearch cs vatRateRE with
      | some m => pyIntE (m.grp cs 1)
      | none => pure 0
    let vat :=
      match reSearch cs vatAmountRE with
      | some m => _parse_number (String.mk (m.grp cs 1))
      | none => .finite 0
    let total :=
      match reSearch cs totalAmountRE with
      | some m => _parse_number (String.mk (m.grp cs 1))
      | none => .finite 0
    pure (base, rate, vat, total)

/-- `VNPTInvoiceParser.parse_pdf` with explicit exception sites. -/
def parse_pdfE (text : String) : Except PyExc Invoice := do
  let cs := normalizeWs text.toList
  let dateStr ←
    match reSearch cs dateRE with
    | some m => pyTry (dateFromGroupsE (m.grp cs 1) (m.grp cs 2) (m.grp cs 3)) ""
    | none => pure ""
  let f ← figuresE cs
  pure { invoice_no :=
           match reSearch cs numberRE with
           | some m => String.mk (pyStrip (m.grp cs 1))
           | none => ""
         serial_no :=
           match reSearch cs serialRE with
           | some m => String.mk (pyStrip (m.grp cs 1))
           | none => ""
         invoice_date := dateStr
         lines :=
           if anyFigure f then
             [{ base_amount := f.1, vat_rate := f.2.1, vat_amount := f.2.2.1,
                total_amount := f.2.2.2 }]
           else [] }

end VNPTInvoiceParser

/-! ## Parser registry (`invoice_parsers` module lookup) -/

/-- The three parser modules the registry can return. -/
inductive ParserModule where
  | mobifone
  | viettel
  | vnpt
deriving DecidableEq, Repr

/-- `provider.lower().strip()`. -/
def normProviderName (provider : String) : String :=
  String.mk (pyStrip (provider.toList.map pyLower))

/-- The `module_map` dictionary lookup. -/
def moduleMapLookup (p : String) : Option ParserModule :=
  if p = "mobifone" then some .mobifone
  else if p = "viettel" then some .viettel
  else if p = "vnpt" then some .vnpt
  else none

/-- The registry lookup of the `invoice_parsers` package: lowercase and
trim the provider name, then
either return its parser module or raise `ImportError`. -/
def getParser (provider : String) : Except PyExc ParserModule :=
  let p := normProviderName provider
  match moduleMapLookup p with
  | some m => .ok m
  | none => .error (.importError ("No parser available for provider: " ++ p))


/-! ## Engine lemmas: spans of class-shaped capture groups

The parsers apply `int()` (uncaught) to the captures of the digit-class
groups, and `_parse_number` to the captures of the numeric-token groups.
The lemmas below show, for any successful search, that such a capture is a
nonempty string of characters of the group's class. -/

/-- Span property of a capture `[a, b)`: nonempty, the first character
satisfies `p0`, the rest satisfy `p1`. -/
def SpanPred (p0 p1 : Char → Bool) (cs : List Char) (a b : Nat) : Prop :=
  a < b ∧ (∃ c, cs[a]? = some c ∧ p0 c = true) ∧
    ∀ j, a < j → j < b → ∃ c, cs[j]? = some c ∧ p1 c = true

/-- `body` passes its continuation a position whose consumed span satisfies
`Q`, with the group list untouched. -/
def SpanOK (body : RE) (Q : List Char → Nat → Nat → Prop) : Prop :=
  ∀ cs i g k res, matchRE cs body i g k = some res →
    ∃ i', Q cs i i' ∧ k i' g = some res

/-- `r` contains no occurrence of capture group `n`. -/
def NoG (n : Nat) : RE → Prop
  | .cat a b => NoG n a ∧ NoG n b
  | .opt a => NoG n a
  | .group m a => m ≠ n ∧ NoG n a
  | _ => True

/-- Group `n` occurs in `r` exactly once, on the mandatory spine, with body
`body`. -/
def OnceG (n : Nat) (body : RE) : RE → Prop
  | .cat a b => (OnceG n body a ∧ NoG n b) ∨ (NoG n a ∧ OnceG n body b)
  | .group m a => m = n ∧ a = body
  | _ => False

/-- The character repertoire of a monetary token per the spec: digits, dot,
comma, and non-breaking space. -/
def isTokenChar (c : Char) : Bool := isDigit c || c == '.' || c == ',' || c == nbsp

/-- The optionally-signed `inf`/`infinity`/`nan` literal forms accepted by
`float(str)` (the only digit-free strings it accepts). -/
def isInfNanBody (rest : List Char) : Bool :=
  rest.map pyLower == ['i', 'n', 'f'] ||
    rest.map pyLower == ['i', 'n', 'f', 'i', 'n', 'i', 't', 'y'] ||
    rest.map pyLower == ['n', 'a', 'n']

def isInfNanLiteral (l : List Char) : Bool :=
  isInfNanBody (stripSign (pyStrip l))


theorem takeWhile_getElem? {f : Char → Bool} :
    ∀ (l : List Char) (t : Nat), t < (l.takeWhile f).length →
      ∃ c, l[t]? = some c ∧ f c = true := by
  intro l
  induction l with
  | nil => intro t ht; simp [List.takeWhile] at ht
  | cons c l ih =>
    intro t ht
    rw [List.takeWhile_cons] at ht
    by_cases hf : f c
    · rw [if_pos hf] at ht
      match t with
      | 0 => exact ⟨c, by simp, hf⟩
      | t + 1 =>
        simp only [List.length_cons, Nat.add_lt_add_iff_right] at ht
        simpa using ih t ht
    · rw [if_neg hf] at ht
      simp at ht

theorem clsRun_getElem {f : Char → Bool} {cs : List Char} {i t : Nat}
    (ht : t < clsRun f cs i) : ∃ c, cs[i + t]? = some c ∧ f c = true := by
  obtain ⟨c, hc, hf⟩ := takeWhile_getElem? (cs.drop i) t ht
  exact ⟨c, by rwa [List.getElem?_drop] at hc, hf⟩

theorem mem_repCounts {lo : Nat} {hi : Option Nat} {lz : Bool} {run j : Nat}
    (hj : j ∈ repCounts lo hi lz run) : lo ≤ j ∧ j ≤ run := by
  unfold repCounts at hj
  rcases hi with _ | h
  · simp only at hj
    split at hj
    · simp at hj
    · rename_i htop
      split at hj <;>
        simp only [List.mem_reverse, List.mem_range'_1] at hj <;> omega
  · simp only at hj
    split at hj
    · simp at hj
    · rename_i htop
      have hmin : min run h ≤ run := Nat.min_le_left _ _
      split at hj <;>
        simp only [List.mem_reverse, List.mem_range'_1] at hj <;> omega

theorem spanOK_repCls (f : Char → Bool) (lo : Nat) (hi : Option Nat)
    (lz : Bool) (hlo : 1 ≤ lo) :
    SpanOK (.repCls f lo hi lz) (SpanPred f f) := by
  intro cs i g k res h
  simp only [matchRE] at h
  obtain ⟨j, hj, hk⟩ := List.exists_of_findSome?_eq_some h
  obtain ⟨h1, h2⟩ := mem_repCounts hj
  refine ⟨i + j, ⟨by omega, ?_, ?_⟩, hk⟩
  · obtain ⟨c, hc, hf⟩ := @clsRun_getElem f cs i 0 (by omega)
    exact ⟨c, by simpa using hc, hf⟩
  · intro j' hj1 hj2
    obtain ⟨c, hc, hf⟩ := @clsRun_getElem f cs i (j' - i) (by omega)
    exact ⟨c, by rwa [show i + (j' - i) = j' by omega] at hc, hf⟩

theorem spanOK_numBody :
    SpanOK (.cat (.cls isDigit) (reStar clsNumDotComma))
      (SpanPred isDigit clsNumDotComma) := by
  intro cs i g k res h
  cases hc : cs[i]? with
  | none => simp [matchRE, reStar, hc] at h
  | some c =>
    by_cases hd : isDigit c = true
    · simp only [matchRE, reStar, hc, hd, if_true] at h
      obtain ⟨j, hj, hk⟩ := List.exists_of_findSome?_eq_some h
      obtain ⟨_, h2⟩ := mem_repCounts hj
      refine ⟨i + 1 + j, ⟨by omega, ⟨c, hc, hd⟩, ?_⟩, hk⟩
      intro j' hj1 hj2
      obtain ⟨c', hc', hf'⟩ :=
        @clsRun_getElem clsNumDotComma cs (i + 1) (j' - (i + 1)) (by omega)
      exact ⟨c', by rwa [show i + 1 + (j' - (i + 1)) = j' by omega] at hc', hf'⟩
    · simp [matchRE, reStar, hc, hd] at h

theorem findN_cons {n m a b : Nat} {g : List (Nat × Nat × Nat)} :
    findN n ((m, a, b) :: g) = if m == n then some (m, a, b) else findN n g := by
  by_cases hm : (m == n) = true
  · rw [if_pos hm]
    exact List.find?_cons_of_pos _ (by simpa using hm)
  · rw [if_neg hm]
    exact List.find?_cons_of_neg _ (by simpa using hm)

theorem matchRE_noG {n : Nat} :
    ∀ (r : RE), NoG n r → ∀ (cs : List Char) (i : Nat) g k res,
      matchRE cs r i g k = some res →
      ∃ i' g', findN n g' = findN n g ∧ k i' g' = some res := by
  intro r
  induction r with
  | eps =>
    intro _ cs i g k res h
    exact ⟨i, g, rfl, by simpa [matchRE] using h⟩
  | cls f =>
    intro _ cs i g k res h
    cases hc : cs[i]? with
    | none => simp [matchRE, hc] at h
    | some c =>
      by_cases hf : f c = true
      · simp only [matchRE, hc, hf, if_true] at h
        exact ⟨i + 1, g, rfl, h⟩
      · simp [matchRE, hc, hf] at h
  | cat a b iha ihb =>
    intro hng cs i g k res h
    simp only [matchRE] at h
    obtain ⟨i1, g1, hf1, h1⟩ := iha hng.1 cs i g _ res h
    obtain ⟨i2, g2, hf2, h2⟩ := ihb hng.2 cs i1 g1 k res h1
    exact ⟨i2, g2, hf2.trans hf1, h2⟩
  | opt a iha =>
    intro hng cs i g k res h
    simp only [matchRE] at h
    cases ha : matchRE cs a i g k with
    | some r0 =>
      rw [ha] at h
      cases h
      exact iha hng cs i g k res ha
    | none =>
      rw [ha] at h
      exact ⟨i, g, rfl, h⟩
  | repCls f lo hi lz =>
    intro _ cs i g k res h
    simp only [matchRE] at h
    obtain ⟨j, _, hk⟩ := List.exists_of_findSome?_eq_some h
    exact ⟨i + j, g, rfl, hk⟩
  | group m a iha =>
    intro hng cs i g k res h
    simp only [matchRE] at h
    obtain ⟨i1, g1, hf1, h1⟩ := iha hng.2 cs i g _ res h
    refine ⟨i1, (m, i, i1) :: g1, ?_, h1⟩
    rw [findN_cons, if_neg (by simpa using hng.1), hf1]
  | wordB =>
    intro _ cs i g k res h
    simp only [matchRE] at h
    split at h
    · exact ⟨i, g, rfl, h⟩
    · exact absurd h (by simp)

theorem matchRE_onceG {n : Nat} {body : RE} {Q : List Char → Nat → Nat → Prop}
    (hS : SpanOK body Q) :
    ∀ (r : RE), OnceG n body r → ∀ (cs : List Char) (i : Nat) g k res,
      matchRE cs r i g k = some res →
      ∃ i' g' a b, findN n g' = some (n, a, b) ∧ Q cs a b ∧
        k i' g' = some res := by
  intro r
  induction r with
  | eps => intro ho; exact ho.elim
  | cls f => intro ho; exact ho.elim
  | cat a b iha ihb =>
    intro ho cs i g k res h
    simp only [matchRE] at h
    rcases ho with ⟨hoa, hnb⟩ | ⟨hna, hob⟩
    · obtain ⟨i1, g1, a', b', hf1, hQ, h1⟩ := iha hoa cs i g _ res h
      obtain ⟨i2, g2, hf2, h2⟩ := matchRE_noG b hnb cs i1 g1 k res h1
      exact ⟨i2, g2, a', b', hf2.trans hf1, hQ, h2⟩
    · obtain ⟨i1, g1, hf1, h1⟩ := matchRE_noG a hna cs i g _ res h
      exact ihb hob cs i1 g1 k res h1
  | opt a iha => intro ho; exact ho.elim
  | repCls f lo hi lz => intro ho; exact ho.elim
  | group m a iha =>
    intro ho cs i g k res h
    obtain ⟨hm, hbody⟩ := ho
    subst hm
    subst hbody
    simp only [matchRE] at h
    obtain ⟨i', hQ, hk⟩ := hS cs i g _ res h
    refine ⟨i', (m, i, i') :: g, i, i', ?_, hQ, hk⟩
    rw [findN_cons, if_pos (by simp)]
  | wordB => intro ho; exact ho.elim

/-- Any successful search on a pattern whose group `n` is a mandatory
class-shaped group records a span for `n` satisfying the class property. -/
theorem reSearchFrom_capture {n : Nat} {body : RE} {Q : List Char → Nat → Nat → Prop}
    (hS : SpanOK body Q) {r : RE} (ho : OnceG n body r)
    {cs : List Char} {pos : Nat} {m : MRes}
    (h : reSearchFrom cs r pos = some m) :
    ∃ a b, findN n m.groups = some (n, a, b) ∧ Q cs a b := by
  unfold reSearchFrom at h
  obtain ⟨p, _, hp⟩ := List.exists_of_findSome?_eq_some h
  obtain ⟨i', g', a, b, hf, hQ, hk⟩ := matchRE_onceG hS r ho cs p [] _ m hp
  cases hk
  exact ⟨a, b, hf, hQ⟩

theorem findIterAux_from {cs : List Char} {r : RE} :
    ∀ (fuel pos : Nat) (m : MRes), m ∈ findIterAux cs r fuel pos →
      ∃ p, reSearchFrom cs r p = some m := by
  intro fuel
  induction fuel with
  | zero => intro pos m hm; simp [findIterAux] at hm
  | succ f ih =>
    intro pos m hm
    simp only [findIterAux] at hm
    cases hs : reSearchFrom cs r pos with
    | none => rw [hs] at hm; simp at hm
    | some m0 =>
      rw [hs] at hm
      rcases List.mem_cons.mp hm with h | h
      · exact ⟨pos, h ▸ hs⟩
      · exact ih _ m h

theorem findIter_capture {n : Nat} {body : RE} {Q : List Char → Nat → Nat → Prop}
    (hS : SpanOK body Q) {r : RE} (ho : OnceG n body r)
    {cs : List Char} {m : MRes} (hm : m ∈ findIter cs r) :
    ∃ a b, findN n m.groups = some (n, a, b) ∧ Q cs a b := by
  obtain ⟨p, hp⟩ := findIterAux_from _ _ m hm
  exact reSearchFrom_capture hS ho hp

/-- Reading a recorded class-shaped span out of the subject: the capture is
nonempty and consists of characters of the group's classes. -/
theorem grp_spanPred {cs : List Char} {m : MRes} {n a b : Nat}
    {p0 p1 : Char → Bool}
    (hf : findN n m.groups = some (n, a, b)) (hQ : SpanPred p0 p1 cs a b) :
    m.grp cs n ≠ [] ∧ ∀ c ∈ m.grp cs n, (p0 c || p1 c) = true := by
  obtain ⟨hab, ⟨c0, hc0, hp0⟩, hrest⟩ := hQ
  have ha : a < cs.length := (List.getElem?_eq_some.mp hc0).1
  have hb : b ≤ cs.length := by
    rcases Nat.lt_or_ge (a + 1) b with h1 | h1
    · obtain ⟨c1, hc1, _⟩ := hrest (b - 1) (by omega) (by omega)
      have := (List.getElem?_eq_some.mp hc1).1
      omega
    · omega
  have hgrp : m.grp cs n = (cs.drop a).take (b - a) := by
    unfold MRes.grp
    rw [hf]
  have hlen : (m.grp cs n).length = b - a := by
    rw [hgrp, List.length_take, List.length_drop]
    omega
  constructor
  · intro hnil
    rw [hnil] at hlen
    simp at hlen
    omega
  · intro c hc
    obtain ⟨t, ht⟩ := List.mem_iff_getElem?.mp hc
    have htlt : t < b - a := by
      have := (List.getElem?_eq_some.mp ht).1
      omega
    have hcs : cs[a + t]? = some c := by
      rw [hgrp] at ht
      rw [List.getElem?_take, if_pos htlt, List.getElem?_drop] at ht
      exact ht
    rcases Nat.eq_zero_or_pos t with h0 | hpos
    · subst h0
      rw [show a + 0 = a by omega, hc0] at hcs
      cases hcs
      simp [hp0]
    · obtain ⟨c', hc', hp1⟩ := hrest (a + t) (by omega) (by omega)
      rw [hc'] at hcs
      cases hcs
      simp [hp1]

/-! ## Lemmas about the number pipeline -/

theorem isDigit_not_ws {c : Char} (h : isDigit c = true) : isPyWs c = false := by
  simp only [isDigit, Bool.and_eq_true, decide_eq_true_eq] at h
  simp only [isPyWs, Bool.or_eq_false_iff, Bool.and_eq_false_iff,
    decide_eq_false_iff_not, beq_eq_false_iff_ne, ne_eq]
  omega

theorem all_digit_not_ws {l : List Char} (h : ∀ c ∈ l, isDigit c = true) :
    ∀ c ∈ l, isPyWs c = false :=
  fun c hc => isDigit_not_ws (h c hc)

theorem dropWhile_eq_self_of_not {l : List Char} {p : Char → Bool}
    (h : ∀ c ∈ l, p c = false) : l.dropWhile p = l := by
  cases l with
  | nil => rfl
  | cons c t => rw [List.dropWhile_cons, h c (by simp)]; simp

theorem pyStrip_eq_self {l : List Char} (h : ∀ c ∈ l, isPyWs c = false) :
    pyStrip l = l := by
  unfold pyStrip
  rw [dropWhile_eq_self_of_not h,
    dropWhile_eq_self_of_not (fun c hc => h c (by simpa using hc)),
    List.reverse_reverse]

theorem pyIntE_digits {l : List Char} (h0 : l ≠ []) (hd : ∀ c ∈ l, isDigit c = true) :
    pyIntE l = .ok (digitsVal l : Int) := by
  unfold pyIntE
  rw [pyStrip_eq_self (all_digit_not_ws hd)]
  split
  · exfalso
    have h1 := hd '-' (by simp)
    simp [isDigit] at h1
  · exfalso
    have h1 := hd '+' (by simp)
    simp [isDigit] at h1
  · rw [if_pos]
    simp only [Bool.and_eq_true, Bool.not_eq_true', List.all_eq_true]
    refine ⟨?_, hd⟩
    cases l with
    | nil => exact absurd rfl h0
    | cons a b => simp

theorem pyLower_small {c : Char} (hU : isAsciiUpper c = false)
    (hc : c.toNat < 192) : pyLower c = c := by
  unfold pyLower
  rw [hU]
  simp only [Bool.false_eq_true, if_false]
  cases hf : viLowerPairs.find? (fun p => p.1 == c) with
  | none => rfl
  | some p =>
    exfalso
    have hp := List.find?_some hf
    have hmem := List.mem_of_find?_eq_some hf
    have hbig : ∀ q ∈ viLowerPairs, 192 ≤ q.1.toNat := by decide
    have hge := hbig p hmem
    have hpc : p.1 = c := by simpa using hp
    rw [hpc] at hge
    omega

theorem pyLower_digit {c : Char} (h : isDigit c = true) : pyLower c = c := by
  simp only [isDigit, Bool.and_eq_true, decide_eq_true_eq] at h
  apply pyLower_small
  · simp only [isAsciiUpper, Bool.and_eq_false_iff, decide_eq_false_iff_not]
    omega
  · omega

theorem takeWhile_eq_self_of_all {l : List Char} {p : Char → Bool}
    (h : ∀ c ∈ l, p c = true) : l.takeWhile p = l := by
  induction l with
  | nil => rfl
  | cons c t ih =>
    rw [List.takeWhile_cons, h c (by simp)]
    simp only [if_true]
    rw [ih (fun c hc => h c (by simp [hc]))]

theorem parseDecimal_digits {l : List Char} (h0 : l ≠ [])
    (hd : ∀ c ∈ l, isDigit c = true) :
    parseDecimal false l = some (.finite (digitsVal l : ℚ)) := by
  simp only [parseDecimal, takeWhile_eq_self_of_all hd, List.drop_length]
  have hfrac : parseDecimalFrac false l [] = parseDecimalExp false l [] [] := by
    rfl
  rw [hfrac]
  simp only [parseDecimalExp, List.length_nil, Nat.add_zero]
  rw [if_neg (by simp [h0])]
  simp only [mkFloatVal, List.append_nil, List.length_nil, Nat.cast_zero]
  norm_num [Rat.mkRat_one]

/-- `float` of a nonempty all-digit string is its exact natural value. -/
theorem pyStrToFloat_digits {l : List Char} (h0 : l ≠ [])
    (hd : ∀ c ∈ l, isDigit c = true) :
    pyStrToFloat l = some (.finite (digitsVal l : ℚ)) := by
  have hlow : l.map pyLower = l := by
    rw [List.map_congr_left (fun c hc => pyLower_digit (hd c hc))]
    exact List.map_id l
  have hsigned : pyStrToFloatSigned false l = some (.finite (digitsVal l : ℚ)) := by
    have hinf : l ≠ ['i', 'n', 'f'] := by
      intro he; have h1 := hd 'i' (by rw [he]; simp); simp [isDigit] at h1
    have hinfty : l ≠ ['i', 'n', 'f', 'i', 'n', 'i', 't', 'y'] := by
      intro he; have h1 := hd 'i' (by rw [he]; simp); simp [isDigit] at h1
    have hnan : l ≠ ['n', 'a', 'n'] := by
      intro he; have h1 := hd 'n' (by rw [he]; simp); simp [isDigit] at h1
    simp only [pyStrToFloatSigned, hlow]
    rw [if_neg (by simp [hinf, hinfty]), if_neg (by simp [hnan])]
    exact parseDecimal_digits h0 hd
  have hsgn : signOf l = false := by
    unfold signOf
    split
    · exfalso; have h1 := hd '-' (by simp); simp [isDigit] at h1
    · rfl
  have hstr : stripSign l = l := by
    unfold stripSign
    split
    · exfalso; have h1 := hd '+' (by simp); simp [isDigit] at h1
    · exfalso; have h1 := hd '-' (by simp); simp [isDigit] at h1
    · rfl
  unfold pyStrToFloat
  rw [pyStrip_eq_self (all_digit_not_ws hd), hsgn, hstr]
  exact hsigned

theorem mem_pyStrip {c : Char} {l : List Char} (h : c ∈ pyStrip l) : c ∈ l := by
  unfold pyStrip at h
  rw [List.mem_reverse] at h
  have h2 := (List.dropWhile_sublist _).mem h
  rw [List.mem_reverse] at h2
  exact (List.dropWhile_sublist _).mem h2

theorem nbsp_toNat : nbsp.toNat = 160 := by decide

theorem clean_mobifone_digits {s : String}
    (h : ∀ c ∈ s.toList, isTokenChar c = true) :
    ∀ c ∈ MobifoneInvoiceParser.cleanNumber s, isDigit c = true := by
  intro c hc
  simp only [MobifoneInvoiceParser.cleanNumber, List.mem_filter,
    decide_eq_true_eq] at hc
  obtain ⟨⟨hmem, hsp⟩, hdot⟩ := hc
  simp only [List.mem_map] at hmem
  obtain ⟨d, hd, hcd⟩ := hmem
  obtain ⟨e, he, hed⟩ := List.mem_map.mp (mem_pyStrip hd)
  have hTok := h e he
  simp only [isTokenChar, Bool.or_eq_true, beq_iff_eq] at hTok
  rcases hTok with ((he1 | he1) | he1) | he1
  · have hnb : e ≠ nbsp := fun hx => by rw [hx] at he1; exact absurd he1 (by decide)
    rw [if_neg hnb] at hed
    subst hed
    have hnc : e ≠ ',' := fun hx => by rw [hx] at he1; exact absurd he1 (by decide)
    rw [if_neg hnc] at hcd
    subst hcd
    exact he1
  · subst he1
    rw [if_neg (by decide)] at hed
    subst hed
    rw [if_neg (by decide)] at hcd
    exact absurd hcd.symm hdot
  · subst he1
    rw [if_neg (by decide)] at hed
    subst hed
    rw [if_pos rfl] at hcd
    exact absurd hcd.symm hdot
  · subst he1
    rw [if_pos rfl] at hed
    subst hed
    rw [if_neg (by decide)] at hcd
    exact absurd hcd.symm hsp

theorem clean_viettel_digits {s : String}
    (h : ∀ c ∈ s.toList, isTokenChar c = true) :
    ∀ c ∈ ViettelInvoiceParser.cleanNumber s, isDigit c = true := by
  intro c hc
  simp only [ViettelInvoiceParser.cleanNumber, List.mem_filter,
    decide_eq_true_eq] at hc
  obtain ⟨hmem, hdot⟩ := hc
  simp only [List.mem_map] at hmem
  obtain ⟨d, hd, hcd⟩ := hmem
  have hd2 := mem_pyStrip hd
  rw [List.mem_filter] at hd2
  obtain ⟨he, hnb⟩ := hd2
  have hTok := h d he
  simp only [isTokenChar, Bool.or_eq_true, beq_iff_eq] at hTok
  rcases hTok with ((he1 | he1) | he1) | he1
  · have hnc : d ≠ ',' := fun hx => by rw [hx] at he1; exact absurd he1 (by decide)
    rw [if_neg hnc] at hcd
    subst hcd
    exact he1
  · subst he1
    rw [if_neg (by decide)] at hcd
    exact absurd hcd.symm hdot
  · subst he1
    rw [if_pos rfl] at hcd
    exact absurd hcd.symm hdot
  · exact absurd he1 (by simpa using hnb)

theorem vnpt_clean_eq :
    VNPTInvoiceParser.cleanNumber = ViettelInvoiceParser.cleanNumber := rfl

theorem empty_float_fails : pyFloatE ([] : List Char) = .error .valueError := by decide

theorem parse_number_token_viettel {s : String}
    (h : ∀ c ∈ s.toList, isTokenChar c = true) :
    ∃ n : ℕ, ViettelInvoiceParser._parse_number s = .finite (n : ℚ) := by
  have hdig := clean_viettel_digits h
  unfold ViettelInvoiceParser._parse_number ViettelInvoiceParser._parse_numberE
  by_cases h0 : ViettelInvoiceParser.cleanNumber s = []
  · refine ⟨0, ?_⟩
    rw [h0, empty_float_fails]
    simp [pyTry, pyRun]
  · refine ⟨digitsVal (ViettelInvoiceParser.cleanNumber s), ?_⟩
    unfold pyFloatE
    rw [pyStrToFloat_digits h0 hdig]
    simp [pyTry, pyRun]

theorem parse_number_token_vnpt {s : String}
    (h : ∀ c ∈ s.toList, isTokenChar c = true) :
    ∃ n : ℕ, VNPTInvoiceParser._parse_number s = .finite (n : ℚ) := by
  have he : VNPTInvoiceParser._parse_number s = ViettelInvoiceParser._parse_number s := by
    unfold VNPTInvoiceParser._parse_number VNPTInvoiceParser._parse_numberE
    rw [vnpt_clean_eq]
    rfl
  rw [he]
  exact parse_number_token_viettel h

theorem parse_number_token_mobifone {s : String}
    (h : ∀ c ∈ s.toList, isTokenChar c = true) :
    ∃ n : ℕ, MobifoneInvoiceParser._parse_number s = .finite (n : ℚ) := by
  have hdig := clean_mobifone_digits h
  unfold MobifoneInvoiceParser._parse_number MobifoneInvoiceParser._parse_numberE
  by_cases hs : s = ""
  · exact ⟨0, by rw [if_pos hs]; simp [pyRun]⟩
  · rw [if_neg hs]
    by_cases h0 : MobifoneInvoiceParser.cleanNumber s = []
    · refine ⟨0, ?_⟩
      rw [h0, empty_float_fails]
      simp [pyTry, pyRun]
    · refine ⟨digitsVal (MobifoneInvoiceParser.cleanNumber s), ?_⟩
      unfold pyFloatE
      rw [pyStrToFloat_digits h0 hdig]
      simp [pyTry, pyRun]

/-! ### Digit-free inputs -/

theorem parseDecimalExp_empty {neg : Bool} {r2 : List Char} :
    parseDecimalExp neg [] [] r2 = none := by
  cases r2 <;> simp [parseDecimalExp]

theorem parseDecimal_no_digit {neg : Bool} {l : List Char}
    (hnd : ∀ c ∈ l, isDigit c = false) : parseDecimal neg l = none := by
  have hip : l.takeWhile isDigit = [] := by
    cases l with
    | nil => rfl
    | cons c t => rw [List.takeWhile_cons, hnd c (by simp)]; simp
  simp only [parseDecimal, hip, List.length_nil, List.drop_zero]
  unfold parseDecimalFrac
  split
  · rename_i t
    have hfp : t.takeWhile isDigit = [] := by
      cases t with
      | nil => rfl
      | cons c u =>
        rw [List.takeWhile_cons, hnd c (by simp)]
        simp
    rw [hfp]
    exact parseDecimalExp_empty
  · exact parseDecimalExp_empty

theorem pyStrToFloatSigned_no_digit {neg : Bool} {t : List Char}
    (hnd : ∀ c ∈ t, isDigit c = false) (hlit : isInfNanBody t = false) :
    pyStrToFloatSigned neg t = none := by
  simp only [isInfNanBody, Bool.or_eq_false_iff, beq_eq_false_iff_ne, ne_eq] at hlit
  simp only [pyStrToFloatSigned]
  rw [if_neg (by simp [hlit.1.1, hlit.1.2]), if_neg (by simp [hlit.2])]
  exact parseDecimal_no_digit hnd

theorem mem_stripSign {c : Char} {l : List Char} (h : c ∈ stripSign l) :
    c ∈ l := by
  unfold stripSign at h
  split at h <;> simp_all

theorem pyStrToFloat_no_digit {l : List Char}
    (hnd : ∀ c ∈ l, isDigit c = false) (hlit : isInfNanLiteral l = false) :
    pyStrToFloat l = none := by
  have hmem : ∀ c ∈ stripSign (pyStrip l), isDigit c = false :=
    fun c hc => hnd c (mem_pyStrip (mem_stripSign hc))
  unfold isInfNanLiteral at hlit
  unfold pyStrToFloat
  exact pyStrToFloatSigned_no_digit hmem hlit

theorem clean_mobifone_no_digit {s : String}
    (h : ∀ c ∈ s.toList, isDigit c = false) :
    ∀ c ∈ MobifoneInvoiceParser.cleanNumber s, isDigit c = false := by
  intro c hc
  simp only [MobifoneInvoiceParser.cleanNumber, List.mem_filter,
    decide_eq_true_eq] at hc
  obtain ⟨⟨hmem, _⟩, _⟩ := hc
  simp only [List.mem_map] at hmem
  obtain ⟨d, hd, hcd⟩ := hmem
  obtain ⟨e, he, hed⟩ := List.mem_map.mp (mem_pyStrip hd)
  by_cases hdc : d = ','
  · rw [hdc, if_pos rfl] at hcd
    rw [← hcd]
    decide
  · rw [if_neg hdc] at hcd
    subst hcd
    by_cases hen : e = nbsp
    · rw [hen, if_pos rfl] at hed
      rw [← hed]
      decide
    · rw [if_neg hen] at hed
      subst hed
      exact h e he

theorem clean_viettel_no_digit {s : String}
    (h : ∀ c ∈ s.toList, isDigit c = false) :
    ∀ c ∈ ViettelInvoiceParser.cleanNumber s, isDigit c = false := by
  intro c hc
  simp only [ViettelInvoiceParser.cleanNumber, List.mem_filter,
    decide_eq_true_eq] at hc
  obtain ⟨hmem, _⟩ := hc
  simp only [List.mem_map] at hmem
  obtain ⟨d, hd, hcd⟩ := hmem
  have hd2 := mem_pyStrip hd
  rw [List.mem_filter] at hd2
  by_cases hdc : d = ','
  · rw [hdc, if_pos rfl] at hcd
    rw [← hcd]
    decide
  · rw [if_neg hdc] at hcd
    subst hcd
    exact h d hd2.1

theorem parse_number_no_digit_viettel {s : String}
    (h : ∀ c ∈ s.toList, isDigit c = false)
    (hlit : isInfNanLiteral (ViettelInvoiceParser.cleanNumber s) = false) :
    ViettelInvoiceParser._parse_number s = .finite 0 := by
  unfold ViettelInvoiceParser._parse_number ViettelInvoiceParser._parse_numberE
  unfold pyFloatE
  rw [pyStrToFloat_no_digit (clean_viettel_no_digit h) hlit]
  simp [pyTry, pyRun]

theorem parse_number_no_digit_vnpt {s : String}
    (h : ∀ c ∈ s.toList, isDigit c = false)
    (hlit : isInfNanLiteral (VNPTInvoiceParser.cleanNumber s) = false) :
    VNPTInvoiceParser._parse_number s = .finite 0 := by
  unfold VNPTInvoiceParser._parse_number VNPTInvoiceParser._parse_numberE
  unfold pyFloatE
  rw [vnpt_clean_eq] at *
  rw [pyStrToFloat_no_digit (clean_viettel_no_digit h) hlit]
  simp [pyTry, pyRun]

theorem parse_number_no_digit_mobifone {s : String}
    (h : ∀ c ∈ s.toList, isDigit c = false)
    (hlit : isInfNanLiteral (MobifoneInvoiceParser.cleanNumber s) = false) :
    MobifoneInvoiceParser._parse_number s = .finite 0 := by
  unfold MobifoneInvoiceParser._parse_number MobifoneInvoiceParser._parse_numberE
  by_cases hs : s = ""
  · rw [if_pos hs]; simp [pyRun]
  · rw [if_neg hs]
    unfold pyFloatE
    rw [pyStrToFloat_no_digit (clean_mobifone_no_digit h) hlit]
    simp [pyTry, pyRun]

theorem parse_numberE_ok_mobifone (s : String) :
    MobifoneInvoiceParser._parse_numberE s =
      .ok (MobifoneInvoiceParser._parse_number s) := by
  unfold MobifoneInvoiceParser._parse_number MobifoneInvoiceParser._parse_numberE
  by_cases hs : s = ""
  · rw [if_pos hs]; rfl
  · rw [if_neg hs]
    unfold pyTry pyRun pyFloatE
    cases hp : pyStrToFloat (MobifoneInvoiceParser.cleanNumber s) with
    | some v => rfl
    | none => rfl

theorem parse_numberE_ok_viettel (s : String) :
    ViettelInvoiceParser._parse_numberE s =
      .ok (ViettelInvoiceParser._parse_number s) := by
  unfold ViettelInvoiceParser._parse_number ViettelInvoiceParser._parse_numberE
  unfold pyTry pyRun pyFloatE
  cases hp : pyStrToFloat (ViettelInvoiceParser.cleanNumber s) with
  | some v => rfl
  | none => rfl

theorem parse_numberE_ok_vnpt (s : String) :
    VNPTInvoiceParser._parse_numberE s =
      .ok (VNPTInvoiceParser._parse_number s) := by
  unfold VNPTInvoiceParser._parse_number VNPTInvoiceParser._parse_numberE
  unfold pyTry pyRun pyFloatE
  cases hp : pyStrToFloat (VNPTInvoiceParser.cleanNumber s) with
  | some v => rfl
  | none => rfl

/-- Claim C1 (amended).  Part (a): on token strings (digits, dot, comma,
non-breaking space) the normalizers return a non-negative whole value.
Part (b), amended: a digit-free input yields `0.0` unless its cleaned form
is an optionally-signed `inf`/`infinity`/`nan` literal, which CPython's
`float` accepts (the claim as frozen asserts `0.0` for every digit-free
input, which the counterexample `"inf"` refutes).  Part (c): the operation
never raises — its exception-aware form always returns `ok`. -/
theorem claim_C1 :
    (∀ s : String, (∀ c ∈ s.toList, isTokenChar c = true) →
      (∃ n : ℕ, MobifoneInvoiceParser._parse_number s = .finite (n : ℚ)) ∧
      (∃ n : ℕ, ViettelInvoiceParser._parse_number s = .finite (n : ℚ))) ∧
    (∀ s : String, (∀ c ∈ s.toList, isDigit c = false) →
      isInfNanLiteral (MobifoneInvoiceParser.cleanNumber s) = false →
      MobifoneInvoiceParser._parse_number s = .finite 0) ∧
    (∀ s : String, (∀ c ∈ s.toList, isDigit c = false) →
      isInfNanLiteral (ViettelInvoiceParser.cleanNumber s) = false →
      ViettelInvoiceParser._parse_number s = .finite 0) ∧
    (∀ s : String,
      MobifoneInvoiceParser._parse_numberE s =
        .ok (MobifoneInvoiceParser._parse_number s)) ∧
    (∀ s : String,
      ViettelInvoiceParser._parse_numberE s =
        .ok (ViettelInvoiceParser._parse_number s)) :=
  ⟨fun s h => ⟨parse_number_token_mobifone h, parse_number_token_viettel h⟩,
   fun _ h hl => parse_number_no_digit_mobifone h hl,
   fun _ h hl => parse_number_no_digit_viettel h hl,
   parse_numberE_ok_mobifone,
   parse_numberE_ok_viettel⟩

/-- Counterexample to claim C1 as frozen: `"inf"` contains no digit, yet
`_parse_number` returns positive infinity (`float("inf")`), not `0.0`. -/
theorem claim_C1_counterexample :
    ("inf".toList.all (fun c => !isDigit c)) = true ∧
      MobifoneInvoiceParser._parse_number "inf" = .inf ∧
      MobifoneInvoiceParser._parse_number "inf" ≠ .finite 0 := by
  refine ⟨by decide, by decide, by decide⟩

/-- Witness for claim C1 at concrete inputs. -/
theorem claim_C1_witness :
    (∃ n : ℕ, MobifoneInvoiceParser._parse_number "1.234,56" = .finite (n : ℚ)) ∧
      ViettelInvoiceParser._parse_number "abc" = .finite 0 ∧
      MobifoneInvoiceParser._parse_numberE "--" =
        .ok (MobifoneInvoiceParser._parse_number "--") :=
  ⟨(claim_C1.1 "1.234,56" (by decide)).1,
   claim_C1.2.2.1 "abc" (by decide) (by decide),
   claim_C1.2.2.2.1 "--"⟩

/-- Claim C2: on any monetary token (digits, dot, comma, non-breaking
space) containing a decimal comma, every normalizer returns a whole
(non-negative integer) value: the comma becomes a dot before all dots are
removed, so the fractional digits are absorbed into the integer. -/
theorem claim_C2 (s : String) (htok : ∀ c ∈ s.toList, isTokenChar c = true)
    (hcomma : ',' ∈ s.toList) :
    (∃ n : ℕ, ViettelInvoiceParser._parse_number s = .finite (n : ℚ)) ∧
    (∃ n : ℕ, VNPTInvoiceParser._parse_number s = .finite (n : ℚ)) ∧
    (∃ n : ℕ, MobifoneInvoiceParser._parse_number s = .finite (n : ℚ)) :=
  ⟨parse_number_token_viettel htok, parse_number_token_vnpt htok,
   parse_number_token_mobifone htok⟩

/-- Witness for claim C2 at the concrete tokens `"47,5"` and
`"1.234,56"` of the spec: both are truncated to whole values. -/
theorem claim_C2_witness :
    (∃ n : ℕ, ViettelInvoiceParser._parse_number "47,5" = .finite (n : ℚ)) ∧
      ViettelInvoiceParser._parse_number "47,5" = .finite 475 ∧
      VNPTInvoiceParser._parse_number "1.234,56" = .finite 123456 :=
  ⟨(claim_C2 "47,5" (by decide) (by decide)).1, by decide, by decide⟩

/-! ## Deduplicator lemmas -/

theorem dedupAux_sublist (seen : List ChargeLine) :
    ∀ ls : List ChargeLine, (dedupAux seen ls).Sublist ls := by
  intro ls
  induction ls generalizing seen with
  | nil => simp [dedupAux]
  | cons l rest ih =>
    unfold dedupAux
    split
    · exact (ih seen).trans (List.sublist_cons_self l rest)
    · exact (ih (l :: seen)).cons₂ l

theorem dedupLines_sublist (ls : List ChargeLine) : (dedupLines ls).Sublist ls :=
  dedupAux_sublist [] ls

theorem dedupAux_not_seen {seen : List ChargeLine} {ls : List ChargeLine}
    {x : ChargeLine} (hx : x ∈ dedupAux seen ls) :
    ∀ s ∈ seen, lineKeyEq s x = false := by
  induction ls generalizing seen with
  | nil => simp [dedupAux] at hx
  | cons l rest ih =>
    unfold dedupAux at hx
    split at hx
    · exact ih hx
    · rename_i hany
      rcases List.mem_cons.mp hx with h | h
      · subst h
        intro s hs
        by_contra hne
        exact hany (List.any_eq_true.mpr ⟨s, hs, by simpa using hne⟩)
      · intro s hs
        exact ih h s (by simp [hs])

theorem dedupAux_pairwise (seen : List ChargeLine) :
    ∀ ls : List ChargeLine,
      (dedupAux seen ls).Pairwise (fun a b => lineKeyEq a b = false) := by
  intro ls
  induction ls generalizing seen with
  | nil => simp [dedupAux]
  | cons l rest ih =>
    unfold dedupAux
    split
    · exact ih seen
    · refine List.Pairwise.cons ?_ (ih (l :: seen))
      intro x hx
      exact dedupAux_not_seen hx l (by simp)

theorem dedupLines_pairwise (ls : List ChargeLine) :
    (dedupLines ls).Pairwise (fun a b => lineKeyEq a b = false) :=
  dedupAux_pairwise [] ls

theorem dedupAux_keepFirst_aux :
    ∀ (n : Nat) (ls : List ChargeLine), ls.length ≤ n → ∀ seen,
      dedupAux seen ls =
        keepFirst (ls.filter (fun x => !seen.any (fun s => lineKeyEq s x))) := by
  intro n
  induction n with
  | zero =>
    intro ls hlen seen
    cases ls with
    | nil => simp [dedupAux, keepFirst]
    | cons l rest => simp at hlen
  | succ n ih =>
    intro ls hlen seen
    cases ls with
    | nil => simp [dedupAux, keepFirst]
    | cons l rest =>
      unfold dedupAux
      rw [List.filter_cons]
      split
      · rename_i hany
        rw [if_neg (by simpa using hany)]
        exact ih rest (by simpa using Nat.le_of_succ_le_succ hlen) seen
      · rename_i hany
        rw [if_pos (by simpa using hany)]
        rw [keepFirst]
        congr 1
        rw [ih rest (by simpa using Nat.le_of_succ_le_succ hlen) (l :: seen),
          List.filter_filter]
        have hf :
            (rest.filter
              (fun x => !(l :: seen).any (fun s => lineKeyEq s x))) =
            (rest.filter
              (fun a =>
                (!lineKeyEq l a) && !seen.any (fun s => lineKeyEq s a))) := by
          congr 1
          funext x
          simp only [List.any_cons, Bool.not_or]
        rw [hf]

theorem dedupAux_keepFirst (ls seen : List ChargeLine) :
    dedupAux seen ls =
      keepFirst (ls.filter (fun x => !seen.any (fun s => lineKeyEq s x))) :=
  dedupAux_keepFirst_aux ls.length ls (le_refl _) seen

/-- The Line Deduplicator keeps exactly the first occurrence of each key
tuple, in order. -/
theorem dedupLines_keepFirst (ls : List ChargeLine) :
    dedupLines ls = keepFirst ls := by
  rw [dedupLines, dedupAux_keepFirst]
  simp

/-! ## Date lemmas -/

theorem pyIntE_error {l : List Char} {e : PyExc} (h : pyIntE l = .error e) :
    e = .valueError := by
  unfold pyIntE at h
  split at h <;> split at h <;> first | cases h; rfl | cases h

theorem pyDateIsoE_error {y m d : Int} {e : PyExc}
    (h : pyDateIsoE y m d = .error e) : e = .valueError := by
  unfold pyDateIsoE at h
  split at h
  · cases h
  · cases h; rfl

theorem pyDateIsoE_ok {y m d : Int} {s : String} (h : pyDateIsoE y m d = .ok s) :
    ∃ yn mn dn, validYMD yn mn dn = true ∧ s = isoDate yn mn dn := by
  unfold pyDateIsoE at h
  split at h
  · rename_i hcond
    cases h
    exact ⟨y.toNat, m.toNat, d.toNat, hcond.2.2.2, rfl⟩
  · cases h

theorem dateFromGroupsE_error {a b c : List Char} {e : PyExc}
    (h : dateFromGroupsE a b c = .error e) : e = .valueError := by
  simp only [dateFromGroupsE, Bind.bind, Except.bind] at h
  cases hy : pyIntE c with
  | error e' => rw [hy] at h; cases h; exact pyIntE_error hy
  | ok y =>
    rw [hy] at h
    cases hm : pyIntE b with
    | error e' => rw [hm] at h; cases h; exact pyIntE_error hm
    | ok m =>
      rw [hm] at h
      cases hd : pyIntE a with
      | error e' => rw [hd] at h; cases h; exact pyIntE_error hd
      | ok d => rw [hd] at h; exact pyDateIsoE_error h

theorem dateFromGroupsE_ok {a b c : List Char} {s : String}
    (h : dateFromGroupsE a b c = .ok s) :
    ∃ yn mn dn, validYMD yn mn dn = true ∧ s = isoDate yn mn dn := by
  simp only [dateFromGroupsE, Bind.bind, Except.bind] at h
  cases hy : pyIntE c with
  | error e' => rw [hy] at h; cases h
  | ok y =>
    rw [hy] at h
    cases hm : pyIntE b with
    | error e' => rw [hm] at h; cases h
    | ok m =>
      rw [hm] at h
      cases hd : pyIntE a with
      | error e' => rw [hd] at h; cases h
      | ok d => rw [hd] at h; exact pyDateIsoE_ok h

theorem dateTry_ok (a b c : List Char) :
    pyTry (dateFromGroupsE a b c) "" = .ok (dateFromGroups a b c) := by
  unfold dateFromGroups
  cases h : dateFromGroupsE a b c with
  | ok s => simp [pyTry, pyRun]
  | error e =>
    have := dateFromGroupsE_error h
    subst this
    simp [pyTry, pyRun]

theorem dateFromGroups_valid (a b c : List Char) :
    dateFromGroups a b c = "" ∨
      ∃ yn mn dn, validYMD yn mn dn = true ∧
        dateFromGroups a b c = isoDate yn mn dn := by
  unfold dateFromGroups
  cases h : dateFromGroupsE a b c with
  | ok s =>
    right
    obtain ⟨yn, mn, dn, hv, hs⟩ := dateFromGroupsE_ok h
    exact ⟨yn, mn, dn, hv, by simp [pyTry, pyRun, hs]⟩
  | error e =>
    left
    have := dateFromGroupsE_error h
    subst this
    simp [pyTry, pyRun]

theorem exceptMapM_map {α β : Type} (f : α → Except PyExc β) (g : α → β) :
    ∀ l : List α, (∀ x ∈ l, f x = .ok (g x)) →
      MobifoneInvoiceParser.exceptMapM f l = .ok (l.map g) := by
  intro l
  induction l with
  | nil => intro _; rfl
  | cons x xs ih =>
    intro h
    simp only [MobifoneInvoiceParser.exceptMapM, h x (by simp), Bind.bind,
      Except.bind, ih (fun y hy => h y (by simp [hy])), List.map_cons]

/-! ## Mandatory-group instances for the patterns -/

theorem noG_reSeq {n : Nat} : ∀ {l : List RE}, (∀ r ∈ l, NoG n r) → NoG n (reSeq l) := by
  intro l
  induction l with
  | nil => intro _; trivial
  | cons r rest ih =>
    intro h
    exact ⟨h r (by simp), ih (fun r' hr' => h r' (by simp [hr']))⟩

@[simp]
theorem noG_reLit (n : Nat) (s : String) : NoG n (reLit s) := by
  unfold reLit
  apply noG_reSeq
  intro r hr
  simp only [List.mem_map] at hr
  obtain ⟨c, _, hc⟩ := hr
  rw [← hc]
  trivial

theorem onceG_mob_line_3 :
    OnceG 3 (reRep isDigit 1 2) MobifoneInvoiceParser.lineRE := by
  simp [MobifoneInvoiceParser.lineRE, reSeq, OnceG, NoG, numToken, rePlus,
    reStar, reRep, reChar]

theorem onceG_mob_line_1 :
    OnceG 1 (.cat (.cls isDigit) (reStar clsNumDotComma))
      MobifoneInvoiceParser.lineRE := by
  simp [MobifoneInvoiceParser.lineRE, reSeq, OnceG, NoG, numToken, rePlus,
    reStar, reRep, reChar]

theorem onceG_mob_line_2 :
    OnceG 2 (.cat (.cls isDigit) (reStar clsNumDotComma))
      MobifoneInvoiceParser.lineRE := by
  simp [MobifoneInvoiceParser.lineRE, reSeq, OnceG, NoG, numToken, rePlus,
    reStar, reRep, reChar]

theorem onceG_mob_line_4 :
    OnceG 4 (.cat (.cls isDigit) (reStar clsNumDotComma))
      MobifoneInvoiceParser.lineRE := by
  simp [MobifoneInvoiceParser.lineRE, reSeq, OnceG, NoG, numToken, rePlus,
    reStar, reRep, reChar]

theorem onceG_vie_line_2 :
    OnceG 2 (reRep isDigit 1 2) ViettelInvoiceParser.lineRE := by
  simp [ViettelInvoiceParser.lineRE, reSeq, OnceG, NoG, numToken, rePlus,
    reStar, reRep, reChar]

theorem onceG_vie_line_1 :
    OnceG 1 (.cat (.cls isDigit) (reStar clsNumDotComma))
      ViettelInvoiceParser.lineRE := by
  simp [ViettelInvoiceParser.lineRE, reSeq, OnceG, NoG, numToken, rePlus,
    reStar, reRep, reChar]

theorem onceG_vie_line_3 :
    OnceG 3 (.cat (.cls isDigit) (reStar clsNumDotComma))
      ViettelInvoiceParser.lineRE := by
  simp [ViettelInvoiceParser.lineRE, reSeq, OnceG, NoG, numToken, rePlus,
    reStar, reRep, reChar]

theorem onceG_vie_line_4 :
    OnceG 4 (.cat (.cls isDigit) (reStar clsNumDotComma))
      ViettelInvoiceParser.lineRE := by
  simp [ViettelInvoiceParser.lineRE, reSeq, OnceG, NoG, numToken, rePlus,
    reStar, reRep, reChar]

theorem onceG_vnpt_block_2 :
    OnceG 2 (reRep isDigit 1 2) VNPTInvoiceParser.amountBlockRE := by
  simp [VNPTInvoiceParser.amountBlockRE, reSeq, OnceG, NoG, numToken, rePlus,
    reStar, reRep, reChar]

theorem onceG_vnpt_rate_1 :
    OnceG 1 (reRep isDigit 1 2) VNPTInvoiceParser.vatRateRE := by
  simp [VNPTInvoiceParser.vatRateRE, reSeq, OnceG, NoG, numToken, rePlus,
    reStar, reRep, reChar, RE.opt]

/-! ## Capture corollaries -/

/-- A recorded digit-class capture supports `int()`. -/
theorem grp_int_ok {cs : List Char} {m : MRes} {n a b : Nat}
    (hf : findN n m.groups = some (n, a, b))
    (hQ : SpanPred isDigit isDigit cs a b) :
    pyIntE (m.grp cs n) = .ok (pyIntD (m.grp cs n)) := by
  obtain ⟨hne, hall⟩ := grp_spanPred hf hQ
  have hdig : ∀ c ∈ m.grp cs n, isDigit c = true := fun c hc => by
    have := hall c hc
    simpa using this
  rw [pyIntD, pyIntE_digits hne hdig]

theorem mobifone_rate_ok {cs : List Char} {m : MRes}
    (hm : m ∈ findIter cs MobifoneInvoiceParser.lineRE) :
    pyIntE (m.grp cs 3) = .ok (pyIntD (m.grp cs 3)) := by
  obtain ⟨a, b, hf, hQ⟩ :=
    findIter_capture (spanOK_repCls isDigit 1 (some 2) false (by omega))
      onceG_mob_line_3 hm
  exact grp_int_ok hf hQ

theorem viettel_rate_ok {cs : List Char} {m : MRes}
    (hm : m ∈ findIter cs ViettelInvoiceParser.lineRE) :
    pyIntE (m.grp cs 2) = .ok (pyIntD (m.grp cs 2)) := by
  obtain ⟨a, b, hf, hQ⟩ :=
    findIter_capture (spanOK_repCls isDigit 1 (some 2) false (by omega))
      onceG_vie_line_2 hm
  exact grp_int_ok hf hQ

theorem vnpt_block_rate_ok {cs : List Char} {m : MRes}
    (hm : reSearch cs VNPTInvoiceParser.amountBlockRE = some m) :
    pyIntE (m.grp cs 2) = .ok (pyIntD (m.grp cs 2)) := by
  obtain ⟨a, b, hf, hQ⟩ :=
    reSearchFrom_capture (spanOK_repCls isDigit 1 (some 2) false (by omega))
      onceG_vnpt_block_2 hm
  exact grp_int_ok hf hQ

theorem vnpt_rate_ok {cs : List Char} {m : MRes}
    (hm : reSearch cs VNPTInvoiceParser.vatRateRE = some m) :
    pyIntE (m.grp cs 1) = .ok (pyIntD (m.grp cs 1)) := by
  obtain ⟨a, b, hf, hQ⟩ :=
    reSearchFrom_capture (spanOK_repCls isDigit 1 (some 2) false (by omega))
      onceG_vnpt_rate_1 hm
  exact grp_int_ok hf hQ

/-- A numeric-token capture is made of monetary-token characters, so
`_parse_number` returns a finite whole value on it. -/
theorem grp_token_chars {cs : List Char} {m : MRes} {n a b : Nat}
    (hf : findN n m.groups = some (n, a, b))
    (hQ : SpanPred isDigit clsNumDotComma cs a b) :
    ∀ c ∈ (String.mk (m.grp cs n)).toList, isTokenChar c = true := by
  obtain ⟨_, hall⟩ := grp_spanPred hf hQ
  intro c hc
  have hmem : c ∈ m.grp cs n := by simpa using hc
  have h1 := hall c hmem
  simp only [Bool.or_eq_true] at h1
  rcases h1 with h1 | h1
  · simp [isTokenChar, h1]
  · simp only [clsNumDotComma, Bool.or_eq_true, beq_iff_eq] at h1
    rcases h1 with (h1 | h1) | h1
    · simp [isTokenChar, h1]
    · subst h1; decide
    · subst h1; decide

/-! ## The parsers never raise -/

theorem mobifone_lineE_ok {cs : List Char} {m : MRes}
    (hm : m ∈ findIter cs MobifoneInvoiceParser.lineRE) :
    MobifoneInvoiceParser.lineOfMatchE cs m =
      .ok (MobifoneInvoiceParser.lineOfMatch cs m) := by
  unfold MobifoneInvoiceParser.lineOfMatchE MobifoneInvoiceParser.lineOfMatch
  simp only [Bind.bind, Except.bind, mobifone_rate_ok hm]
  rfl

theorem viettel_lineE_ok {cs : List Char} {m : MRes}
    (hm : m ∈ findIter cs ViettelInvoiceParser.lineRE) :
    ViettelInvoiceParser.lineOfMatchE cs m =
      .ok (ViettelInvoiceParser.lineOfMatch cs m) := by
  unfold ViettelInvoiceParser.lineOfMatchE ViettelInvoiceParser.lineOfMatch
  simp only [Bind.bind, Except.bind, viettel_rate_ok hm]
  rfl

theorem mobifone_parse_pdfE_ok (t : String) :
    MobifoneInvoiceParser.parse_pdfE t = .ok (MobifoneInvoiceParser.parse_pdf t) := by
  unfold MobifoneInvoiceParser.parse_pdfE MobifoneInvoiceParser.parse_pdf
    MobifoneInvoiceParser.dateField
  have hlines :=
    exceptMapM_map _ (MobifoneInvoiceParser.lineOfMatch (normalizeWs t.toList))
      (findIter (normalizeWs t.toList) MobifoneInvoiceParser.lineRE)
      (fun m hm => mobifone_lineE_ok hm)
  cases hd : reSearch (normalizeWs t.toList) MobifoneInvoiceParser.dateRE with
  | some m =>
    simp only [hd, Bind.bind, Except.bind, dateTry_ok, hlines,
      MobifoneInvoiceParser.rawLines]
    rfl
  | none =>
    simp only [hd, Bind.bind, Except.bind, pure, Except.pure, hlines,
      MobifoneInvoiceParser.rawLines]

theorem viettel_parse_pdfE_ok (t : String) :
    ViettelInvoiceParser.parse_pdfE t = .ok (ViettelInvoiceParser.parse_pdf t) := by
  unfold ViettelInvoiceParser.parse_pdfE ViettelInvoiceParser.parse_pdf
    ViettelInvoiceParser.dateField
  have hlines :=
    exceptMapM_map _ (ViettelInvoiceParser.lineOfMatch (normalizeWs t.toList))
      (findIter (normalizeWs t.toList) ViettelInvoiceParser.lineRE)
      (fun m hm => viettel_lineE_ok hm)
  cases hs : reSearch (normalizeWs t.toList) ViettelInvoiceParser.dateSlashRE with
  | some m =>
    simp only [hs, Bind.bind, Except.bind, dateTry_ok, hlines,
      ViettelInvoiceParser.rawLines]
    rfl
  | none =>
    cases ht : reSearch (normalizeWs t.toList) ViettelInvoiceParser.dateTextRE with
    | some m =>
      simp only [hs, ht, Bind.bind, Except.bind, dateTry_ok, hlines,
        ViettelInvoiceParser.rawLines]
      rfl
    | none =>
      simp only [hs, ht, Bind.bind, Except.bind, pure, Except.pure, hlines,
        ViettelInvoiceParser.rawLines]

theorem vnpt_figuresE_ok (cs : List Char) :
    VNPTInvoiceParser.figuresE cs = .ok (VNPTInvoiceParser.figures cs) := by
  unfold VNPTInvoiceParser.figuresE VNPTInvoiceParser.figures
    VNPTInvoiceParser.blockFigures VNPTInvoiceParser.fallbackFigures
  cases hb : reSearch cs VNPTInvoiceParser.amountBlockRE with
  | some m =>
    by_cases he : (m.grp cs 2).isEmpty
    · simp only [hb, he, if_true, Bind.bind, Except.bind, pure, Except.pure]
    · simp only [hb, he, if_false, Bool.false_eq_true, Bind.bind, Except.bind,
        vnpt_block_rate_ok hb, pure, Except.pure]
  | none =>
    cases hr : reSearch cs VNPTInvoiceParser.vatRateRE with
    | some m =>
      simp only [hb, hr, Bind.bind, Except.bind, vnpt_rate_ok hr, pure,
        Except.pure]
    | none =>
      simp only [hb, hr, Bind.bind, Except.bind, pure, Except.pure]

theorem vnpt_parse_pdfE_ok (t : String) :
    VNPTInvoiceParser.parse_pdfE t = .ok (VNPTInvoiceParser.parse_pdf t) := by
  unfold VNPTInvoiceParser.parse_pdfE VNPTInvoiceParser.parse_pdf
  cases hd : reSearch (normalizeWs t.toList) VNPTInvoiceParser.dateRE with
  | some m =>
    simp only [hd, Bind.bind, Except.bind, dateTry_ok,
      vnpt_figuresE_ok (normalizeWs t.toList)]
    rfl
  | none =>
    simp only [hd, Bind.bind, Except.bind, pure, Except.pure,
      vnpt_figuresE_ok (normalizeWs t.toList)]

/-- Claim C3: the extraction step of each provider parser never raises (the
exception-aware embedding always returns `ok`, so every parse yields an
`Invoice` record, which by construction carries all four keys), and for
Mobifone text whose normalized form contains no date-pattern match the
`invoice_date` field is the empty string. -/
theorem claim_C3 :
    (∀ t : String,
      MobifoneInvoiceParser.parse_pdfE t = .ok (MobifoneInvoiceParser.parse_pdf t)) ∧
    (∀ t : String,
      ViettelInvoiceParser.parse_pdfE t = .ok (ViettelInvoiceParser.parse_pdf t)) ∧
    (∀ t : String,
      VNPTInvoiceParser.parse_pdfE t = .ok (VNPTInvoiceParser.parse_pdf t)) ∧
    (∀ t : String,
      reSearch (normalizeWs t.toList) MobifoneInvoiceParser.dateRE = none →
      (MobifoneInvoiceParser.parse_pdf t).invoice_date = "") := by
  refine ⟨mobifone_parse_pdfE_ok, viettel_parse_pdfE_ok, vnpt_parse_pdfE_ok, ?_⟩
  intro t h
  unfold MobifoneInvoiceParser.parse_pdf MobifoneInvoiceParser.dateField
  have h' : reSearch (normalizeWs t.data) MobifoneInvoiceParser.dateRE = none := h
  simp [h']

/-- Witness for claim C3 at the concrete text `"x"`, which has no date
pattern. -/
theorem claim_C3_witness :
    MobifoneInvoiceParser.parse_pdfE "x" = .ok (MobifoneInvoiceParser.parse_pdf "x") ∧
      (MobifoneInvoiceParser.parse_pdf "x").invoice_date = "" :=
  ⟨claim_C3.1 "x", claim_C3.2.2.2 "x" (by decide)⟩

/-- Claim C9: every parser's `invoice_date` is either empty or the ISO
rendering of a calendar-valid date (an invalid captured day/month/year
leaves the field empty instead of propagating the `ValueError`). -/
theorem claim_C9 (t : String) :
    ((MobifoneInvoiceParser.parse_pdf t).invoice_date = "" ∨
      ∃ y m d, validYMD y m d = true ∧
        (MobifoneInvoiceParser.parse_pdf t).invoice_date = isoDate y m d) ∧
    ((ViettelInvoiceParser.parse_pdf t).invoice_date = "" ∨
      ∃ y m d, validYMD y m d = true ∧
        (ViettelInvoiceParser.parse_pdf t).invoice_date = isoDate y m d) ∧
    ((VNPTInvoiceParser.parse_pdf t).invoice_date = "" ∨
      ∃ y m d, validYMD y m d = true ∧
        (VNPTInvoiceParser.parse_pdf t).invoice_date = isoDate y m d) := by
  refine ⟨?_, ?_, ?_⟩
  · unfold MobifoneInvoiceParser.parse_pdf MobifoneInvoiceParser.dateField
    cases hd : reSearch (normalizeWs t.data) MobifoneInvoiceParser.dateRE with
    | some m => simpa [hd] using dateFromGroups_valid _ _ _
    | none => simp [hd]
  · unfold ViettelInvoiceParser.parse_pdf ViettelInvoiceParser.dateField
    cases hs : reSearch (normalizeWs t.data) ViettelInvoiceParser.dateSlashRE with
    | some m => simpa [hs] using dateFromGroups_valid _ _ _
    | none =>
      cases ht : reSearch (normalizeWs t.data) ViettelInvoiceParser.dateTextRE with
      | some m => simpa [hs, ht] using dateFromGroups_valid _ _ _
      | none => simp [hs, ht]
  · unfold VNPTInvoiceParser.parse_pdf
    cases hd : reSearch (normalizeWs t.data) VNPTInvoiceParser.dateRE with
    | some m => simpa [hd] using dateFromGroups_valid _ _ _
    | none => simp [hd]

/-- Claim C10 (implicit): the Viettel word-form date pattern is consulted
only when the slash-form pattern finds no match: whenever the slash form
matches, `invoice_date` is exactly the (possibly empty) date derived from
the slash captures, regardless of any word-form date elsewhere in the
text; and only when it finds no match is the word form used. -/
theorem claim_C10 :
    (∀ (t : String) (m : MRes),
      reSearch (normalizeWs t.toList) ViettelInvoiceParser.dateSlashRE = some m →
      (ViettelInvoiceParser.parse_pdf t).invoice_date =
        dateFromGroups (m.grp (normalizeWs t.toList) 1)
          (m.grp (normalizeWs t.toList) 2) (m.grp (normalizeWs t.toList) 3)) ∧
    (∀ t : String,
      reSearch (normalizeWs t.toList) ViettelInvoiceParser.dateSlashRE = none →
      (ViettelInvoiceParser.parse_pdf t).invoice_date =
        (match reSearch (normalizeWs t.toList) ViettelInvoiceParser.dateTextRE with
          | some m =>
            dateFromGroups (m.grp (normalizeWs t.toList) 1)
              (m.grp (normalizeWs t.toList) 2) (m.grp (normalizeWs t.toList) 3)
          | none => "")) := by
  constructor
  · intro t m h
    unfold ViettelInvoiceParser.parse_pdf ViettelInvoiceParser.dateField
    have h' : reSearch (normalizeWs t.data) ViettelInvoiceParser.dateSlashRE = some m := h
    simp [h']
  · intro t h
    unfold ViettelInvoiceParser.parse_pdf ViettelInvoiceParser.dateField
    have h' : reSearch (normalizeWs t.data) ViettelInvoiceParser.dateSlashRE = none := h
    simp [h']

/-- Claim C7: the VNPT summary figures come from the combined block pattern
when it matches and from the four label patterns otherwise; a charge line
is appended exactly when `any([base, vat, total])` holds (the rate does not
participate), so all-zero figures leave `lines` empty. -/
theorem claim_C7 (t : String) :
    (reSearch (normalizeWs t.toList) VNPTInvoiceParser.amountBlockRE = none →
      VNPTInvoiceParser.figures (normalizeWs t.toList) =
        VNPTInvoiceParser.fallbackFigures (normalizeWs t.toList)) ∧
    (∀ m, reSearch (normalizeWs t.toList) VNPTInvoiceParser.amountBlockRE = some m →
      VNPTInvoiceParser.figures (normalizeWs t.toList) =
        VNPTInvoiceParser.blockFigures (normalizeWs t.toList) m) ∧
    ((VNPTInvoiceParser.parse_pdf t).lines = [] ↔
      VNPTInvoiceParser.anyFigure (VNPTInvoiceParser.figures (normalizeWs t.toList)) = false) ∧
    ((VNPTInvoiceParser.parse_pdf t).lines ≠ [] →
      (VNPTInvoiceParser.parse_pdf t).lines =
        [{ base_amount := (VNPTInvoiceParser.figures (normalizeWs t.toList)).1,
           vat_rate := (VNPTInvoiceParser.figures (normalizeWs t.toList)).2.1,
           vat_amount := (VNPTInvoiceParser.figures (normalizeWs t.toList)).2.2.1,
           total_amount := (VNPTInvoiceParser.figures (normalizeWs t.toList)).2.2.2 }]) ∧
    ((VNPTInvoiceParser.figures (normalizeWs t.toList)).1 = .finite 0 ∧
      (VNPTInvoiceParser.figures (normalizeWs t.toList)).2.2.1 = .finite 0 ∧
      (VNPTInvoiceParser.figures (normalizeWs t.toList)).2.2.2 = .finite 0 →
      (VNPTInvoiceParser.parse_pdf t).lines = []) := by
  refine ⟨?_, ?_, ?_, ?_, ?_⟩
  · intro h
    unfold VNPTInvoiceParser.figures
    rw [h]
  · intro m h
    unfold VNPTInvoiceParser.figures
    rw [h]
  · unfold VNPTInvoiceParser.parse_pdf
    by_cases h : VNPTInvoiceParser.anyFigure (VNPTInvoiceParser.figures (normalizeWs t.data)) = true
    · simp [h]
    · simp only [Bool.not_eq_true] at h
      simp [h]
  · intro hne
    unfold VNPTInvoiceParser.parse_pdf at *
    by_cases h : VNPTInvoiceParser.anyFigure (VNPTInvoiceParser.figures (normalizeWs t.data)) = true
    · simp [h]
    · simp only [Bool.not_eq_true] at h
      simp [h] at hne
  · intro ⟨h1, h2, h3⟩
    unfold VNPTInvoiceParser.parse_pdf
    have hany : VNPTInvoiceParser.anyFigure (VNPTInvoiceParser.figures (normalizeWs t.data)) = false := by
      unfold VNPTInvoiceParser.anyFigure
      have h1' : (VNPTInvoiceParser.figures (normalizeWs t.data)).1 = .finite 0 := h1
      have h2' : (VNPTInvoiceParser.figures (normalizeWs t.data)).2.2.1 = .finite 0 := h2
      have h3' : (VNPTInvoiceParser.figures (normalizeWs t.data)).2.2.2 = .finite 0 := h3
      rw [h1', h2', h3']
      rfl
    simp [hany]

/-- Witness for claim C7 at a text carrying only a VAT rate: the block
pattern fails, the fallback captures rate 10 with all amounts zero, and no
line is appended even though the rate is non-zero. -/
theorem claim_C7_witness :
    VNPTInvoiceParser.figures (normalizeWs "Thuế suất thuế GTGT: 10%".toList) =
      VNPTInvoiceParser.fallbackFigures (normalizeWs "Thuế suất thuế GTGT: 10%".toList) ∧
      VNPTInvoiceParser.figures (normalizeWs "Thuế suất thuế GTGT: 10%".toList) =
        (.finite 0, 10, .finite 0, .finite 0) ∧
      (VNPTInvoiceParser.parse_pdf "Thuế suất thuế GTGT: 10%").lines = [] := by
  refine ⟨(claim_C7 "Thuế suất thuế GTGT: 10%").1 (by decide), by decide, ?_⟩
  exact ((claim_C7 "Thuế suất thuế GTGT: 10%").2.2.1).mpr (by decide)

/-- Witness for claim C10: in text carrying an invalid slash date
(31/02/2024) followed by a valid word-form date, the slash match wins,
`invoice_date` is empty, and the word-form pattern — which would have
produced `2024-12-05` — is never consulted. -/
theorem claim_C10_witness :
    (ViettelInvoiceParser.parse_pdf
        "Ngày 31/02/2024 Ngày 5 tháng 12 năm 2024").invoice_date = "" ∧
      (match reSearch
          (normalizeWs "Ngày 31/02/2024 Ngày 5 tháng 12 năm 2024".toList)
          ViettelInvoiceParser.dateTextRE with
        | some m =>
          dateFromGroups
            (m.grp (normalizeWs "Ngày 31/02/2024 Ngày 5 tháng 12 năm 2024".toList) 1)
            (m.grp (normalizeWs "Ngày 31/02/2024 Ngày 5 tháng 12 năm 2024".toList) 2)
            (m.grp (normalizeWs "Ngày 31/02/2024 Ngày 5 tháng 12 năm 2024".toList) 3)
        | none => "") = "2024-12-05" := by
  constructor
  · have h : reSearch
        (normalizeWs "Ngày 31/02/2024 Ngày 5 tháng 12 năm 2024".toList)
        ViettelInvoiceParser.dateSlashRE =
        some ⟨0, 15, [(3, 11, 15), (2, 8, 10), (1, 5, 7)]⟩ := by decide
    rw [claim_C10.1 "Ngày 31/02/2024 Ngày 5 tháng 12 năm 2024"
      ⟨0, 15, [(3, 11, 15), (2, 8, 10), (1, 5, 7)]⟩ h]
    decide
  · decide

/-! ## Field-wise distinctness of surviving lines -/

theorem lineKeyEq_refl_of_fin {a : ChargeLine}
    (h1 : ∃ q, a.base_amount = .finite q)
    (h2 : ∃ q, a.vat_amount = .finite q)
    (h3 : ∃ q, a.total_amount = .finite q) : lineKeyEq a a = true := by
  obtain ⟨q1, e1⟩ := h1
  obtain ⟨q2, e2⟩ := h2
  obtain ⟨q3, e3⟩ := h3
  simp [lineKeyEq, PyFloat.pyEq, e1, e2, e3]

theorem mobifone_line_fin {cs : List Char} {m : MRes}
    (hm : m ∈ findIter cs MobifoneInvoiceParser.lineRE) :
    (∃ q, (MobifoneInvoiceParser.lineOfMatch cs m).base_amount = .finite q) ∧
      (∃ q, (MobifoneInvoiceParser.lineOfMatch cs m).vat_amount = .finite q) ∧
      (∃ q, (MobifoneInvoiceParser.lineOfMatch cs m).total_amount = .finite q) := by
  refine ⟨?_, ?_, ?_⟩
  · obtain ⟨a, b, hf, hQ⟩ := findIter_capture spanOK_numBody onceG_mob_line_4 hm
    obtain ⟨n, hn⟩ := parse_number_token_mobifone (grp_token_chars hf hQ)
    exact ⟨(n : ℚ), by simp [MobifoneInvoiceParser.lineOfMatch, hn]⟩
  · obtain ⟨a, b, hf, hQ⟩ := findIter_capture spanOK_numBody onceG_mob_line_2 hm
    obtain ⟨n, hn⟩ := parse_number_token_mobifone (grp_token_chars hf hQ)
    exact ⟨(n : ℚ), by simp [MobifoneInvoiceParser.lineOfMatch, hn]⟩
  · obtain ⟨a, b, hf, hQ⟩ := findIter_capture spanOK_numBody onceG_mob_line_1 hm
    obtain ⟨n, hn⟩ := parse_number_token_mobifone (grp_token_chars hf hQ)
    exact ⟨(n : ℚ), by simp [MobifoneInvoiceParser.lineOfMatch, hn]⟩

theorem viettel_line_fin {cs : List Char} {m : MRes}
    (hm : m ∈ findIter cs ViettelInvoiceParser.lineRE) :
    (∃ q, (ViettelInvoiceParser.lineOfMatch cs m).base_amount = .finite q) ∧
      (∃ q, (ViettelInvoiceParser.lineOfMatch cs m).vat_amount = .finite q) ∧
      (∃ q, (ViettelInvoiceParser.lineOfMatch cs m).total_amount = .finite q) := by
  refine ⟨?_, ?_, ?_⟩
  · obtain ⟨a, b, hf, hQ⟩ := findIter_capture spanOK_numBody onceG_vie_line_1 hm
    obtain ⟨n, hn⟩ := parse_number_token_viettel (grp_token_chars hf hQ)
    exact ⟨(n : ℚ), by simp [ViettelInvoiceParser.lineOfMatch, hn]⟩
  · obtain ⟨a, b, hf, hQ⟩ := findIter_capture spanOK_numBody onceG_vie_line_3 hm
    obtain ⟨n, hn⟩ := parse_number_token_viettel (grp_token_chars hf hQ)
    exact ⟨(n : ℚ), by simp [ViettelInvoiceParser.lineOfMatch, hn]⟩
  · obtain ⟨a, b, hf, hQ⟩ := findIter_capture spanOK_numBody onceG_vie_line_4 hm
    obtain ⟨n, hn⟩ := parse_number_token_viettel (grp_token_chars hf hQ)
    exact ⟨(n : ℚ), by simp [ViettelInvoiceParser.lineOfMatch, hn]⟩

theorem mobifone_lines_eq (t : String) :
    (MobifoneInvoiceParser.parse_pdf t).lines =
      dedupLines (MobifoneInvoiceParser.rawLines (normalizeWs t.data)) := rfl

theorem viettel_lines_eq (t : String) :
    (ViettelInvoiceParser.parse_pdf t).lines =
      dedupLines (ViettelInvoiceParser.rawLines (normalizeWs t.data)) := rfl

theorem vnpt_lines_eq (t : String) :
    (VNPTInvoiceParser.parse_pdf t).lines =
      (if VNPTInvoiceParser.anyFigure (VNPTInvoiceParser.figures (normalizeWs t.data)) = true then
        [{ base_amount := (VNPTInvoiceParser.figures (normalizeWs t.data)).1,
           vat_rate := (VNPTInvoiceParser.figures (normalizeWs t.data)).2.1,
           vat_amount := (VNPTInvoiceParser.figures (normalizeWs t.data)).2.2.1,
           total_amount := (VNPTInvoiceParser.figures (normalizeWs t.data)).2.2.2 }]
      else []) := rfl

/-- Claim C5: no invoice ever carries two field-wise identical charge
lines: Mobifone and Viettel deduplicate on the key tuple whose fields are
finite floats (where Python tuple-equality coincides with structural
equality), and VNPT appends at most one line. -/
theorem claim_C5 (t : String) :
    (MobifoneInvoiceParser.parse_pdf t).lines.Pairwise (fun a b => a ≠ b) ∧
    (ViettelInvoiceParser.parse_pdf t).lines.Pairwise (fun a b => a ≠ b) ∧
    (VNPTInvoiceParser.parse_pdf t).lines.Pairwise (fun a b => a ≠ b) ∧
    (VNPTInvoiceParser.parse_pdf t).lines.length ≤ 1 := by
  refine ⟨?_, ?_, ?_, ?_⟩
  · rw [mobifone_lines_eq]
    refine List.Pairwise.imp_of_mem ?_ (dedupLines_pairwise _)
    intro a b ha _ hr heq
    subst heq
    have ha' := (dedupLines_sublist _).mem ha
    simp only [MobifoneInvoiceParser.rawLines, List.mem_map] at ha'
    obtain ⟨m, hm, rfl⟩ := ha'
    obtain ⟨f1, f2, f3⟩ := mobifone_line_fin hm
    rw [lineKeyEq_refl_of_fin f1 f2 f3] at hr
    cases hr
  · rw [viettel_lines_eq]
    refine List.Pairwise.imp_of_mem ?_ (dedupLines_pairwise _)
    intro a b ha _ hr heq
    subst heq
    have ha' := (dedupLines_sublist _).mem ha
    simp only [ViettelInvoiceParser.rawLines, List.mem_map] at ha'
    obtain ⟨m, hm, rfl⟩ := ha'
    obtain ⟨f1, f2, f3⟩ := viettel_line_fin hm
    rw [lineKeyEq_refl_of_fin f1 f2 f3] at hr
    cases hr
  · rw [vnpt_lines_eq]
    split <;> simp
  · rw [vnpt_lines_eq]
    split <;> simp

/-- Claim C6: the Line Deduplicator keeps a line exactly when it is the
first occurrence of its key tuple (equivalently, when no previously kept
line has an identical tuple), preserves order (its output is a sublist of
its input), leaves no two key-equal lines, and on two identical tuples
plus one distinct tuple returns exactly the two distinct lines in
first-seen order. -/
theorem claim_C6 :
    (∀ ls : List ChargeLine, dedupLines ls = keepFirst ls) ∧
    (∀ ls : List ChargeLine, (dedupLines ls).Sublist ls) ∧
    (∀ ls : List ChargeLine,
      (dedupLines ls).Pairwise (fun a b => lineKeyEq a b = false)) ∧
    dedupLines
        [{ base_amount := .finite 100, vat_rate := 10, vat_amount := .finite 10,
           total_amount := .finite 110 },
         { base_amount := .finite 100, vat_rate := 10, vat_amount := .finite 10,
           total_amount := .finite 110 },
         { base_amount := .finite 200, vat_rate := 10, vat_amount := .finite 20,
           total_amount := .finite 220 }] =
      [{ base_amount := .finite 100, vat_rate := 10, vat_amount := .finite 10,
         total_amount := .finite 110 },
       { base_amount := .finite 200, vat_rate := 10, vat_amount := .finite 20,
         total_amount := .finite 220 }] :=
  ⟨dedupLines_keepFirst, dedupLines_sublist, dedupLines_pairwise, by decide⟩

/-- Claim C4: the Parser Registry succeeds exactly when lowercasing and
trimming the provider name yields one of the three known identifiers;
`" MOBIFONE "` resolves identically to `"mobifone"`; anything else raises
the provider-not-supported `ImportError` — and this is the only error
condition in the core, the three parsers' extraction never raising. -/
theorem claim_C4 :
    (∀ p : String, (∃ m, getParser p = .ok m) ↔
      (normProviderName p = "mobifone" ∨ normProviderName p = "viettel" ∨
        normProviderName p = "vnpt")) ∧
    getParser " MOBIFONE " = getParser "mobifone" ∧
    getParser " MOBIFONE " = .ok .mobifone ∧
    getParser "unknown_telco" =
      .error (.importError "No parser available for provider: unknown_telco") ∧
    (∀ p : String, (∃ m, getParser p = .ok m) ∨
      getParser p =
        .error (.importError
          ("No parser available for provider: " ++ normProviderName p))) ∧
    (∀ t : String,
      MobifoneInvoiceParser.parse_pdfE t = .ok (MobifoneInvoiceParser.parse_pdf t)) ∧
    (∀ t : String,
      ViettelInvoiceParser.parse_pdfE t = .ok (ViettelInvoiceParser.parse_pdf t)) ∧
    (∀ t : String,
      VNPTInvoiceParser.parse_pdfE t = .ok (VNPTInvoiceParser.parse_pdf t)) := by
  refine ⟨?_, by decide, by decide, by decide, ?_,
    mobifone_parse_pdfE_ok, viettel_parse_pdfE_ok, vnpt_parse_pdfE_ok⟩
  · intro p
    unfold getParser moduleMapLookup
    by_cases h1 : normProviderName p = "mobifone"
    · simp [h1]
    · by_cases h2 : normProviderName p = "viettel"
      · simp [h1, h2]
      · by_cases h3 : normProviderName p = "vnpt"
        · simp [h1, h2, h3]
        · simp [h1, h2, h3]
  · intro p
    unfold getParser moduleMapLookup
    by_cases h1 : normProviderName p = "mobifone"
    · simp [h1]
    · by_cases h2 : normProviderName p = "viettel"
      · simp [h1, h2]
      · by_cases h3 : normProviderName p = "vnpt"
        · simp [h1, h2, h3]
        · simp [h1, h2, h3]

/-- Witness for claim C4 at concrete provider names. -/
theorem claim_C4_witness :
    (∃ m, getParser "vnpt" = .ok m) ∧
      ((∃ m, getParser "bogus" = .ok m) ∨
        getParser "bogus" =
          .error (.importError
            ("No parser available for provider: " ++ normProviderName "bogus"))) ∧
      MobifoneInvoiceParser.parse_pdfE "y" = .ok (MobifoneInvoiceParser.parse_pdf "y") :=
  ⟨(claim_C4.1 "vnpt").mpr (by decide), claim_C4.2.2.2.2.1 "bogus",
    claim_C4.2.2.2.2.2.1 "y"⟩

/-- Claim C8: on the VNPT fallback-path text with the four summary labels
on separate lines, the combined block pattern finds no match and the
fallback label patterns produce exactly one charge line with
`base_amount = 47272`, `vat_rate = 10`, and non-zero `vat_amount = 4727`
and `total_amount = 51999` — the figures of the documented normalizer
pipeline (dots stripped as thousands separators). -/
theorem claim_C8 :
    reSearch
        (normalizeWs
          "Cộng tiền hàng: 47.272\nThuế suất thuế GTGT: 10%\nTiền thuế GTGT: 4.727\nTổng cộng tiền thanh toán: 51.999".toList)
        VNPTInvoiceParser.amountBlockRE = none ∧
      (VNPTInvoiceParser.parse_pdf
          "Cộng tiền hàng: 47.272\nThuế suất thuế GTGT: 10%\nTiền thuế GTGT: 4.727\nTổng cộng tiền thanh toán: 51.999").lines =
        [{ base_amount := .finite 47272, vat_rate := 10,
           vat_amount := .finite 4727, total_amount := .finite 51999 }] :=
  ⟨by decide, by decide⟩

/-- Witness for claim C5 at the empty text. -/
theorem claim_C5_witness :
    (MobifoneInvoiceParser.parse_pdf "").lines.Pairwise (fun a b => a ≠ b) ∧
      (VNPTInvoiceParser.parse_pdf "").lines.length ≤ 1 :=
  ⟨(claim_C5 "").1, (claim_C5 "").2.2.2⟩

/-- Witness for claim C6 at a concrete list. -/
theorem claim_C6_witness :
    dedupLines
        [{ base_amount := .finite 1, vat_rate := 0, vat_amount := .finite 0,
           total_amount := .finite 1 }] =
      keepFirst
        [{ base_amount := .finite 1, vat_rate := 0, vat_amount := .finite 0,
           total_amount := .finite 1 }] :=
  claim_C6.1 _

/-- Witness for claim C9 at the empty text. -/
theorem claim_C9_witness :
    (MobifoneInvoiceParser.parse_pdf "").invoice_date = "" ∨
      ∃ y m d, validYMD y m d = true ∧
        (MobifoneInvoiceParser.parse_pdf "").invoice_date = isoDate y m d :=
  (claim_C9 "").1
